import Mathlib

set_option maxRecDepth 8000

/-!
Shallow embedding of the log-ingestion core of `create_log_db.py` and of the
export decision logic of `errors_to_parquet.py` (repository direkt/mcp-test).

Python strings are modelled as `List Char`.  The regular expressions
`LOG_PATTERN`, `ALT_LOG_PATTERN` and `STACK_TRACE_START_PATTERN` are
translated into parsers over `List Char`; every greedy sub-pattern of the two
structural patterns is followed by a literal or a character class that is
disjoint from it, so Python's backtracking can never change the outcome and
the parsers are written as straight-line greedy matchers.  The one place
where backtracking is observable — the `\s+(.+)$` tail of the fallback
pattern — is implemented with explicit backtracking (`spacesThenMsg`).

The `sqlite3` connection is modelled per the spec's Storage Sink contract
(spec section 2, an external collaborator): bulk inserts assign consecutive
identifiers starting at 1, and `cursor.lastrowid` is the identifier assigned
to the most recently inserted record.
-/

/-- ASCII model of the regex class `\d`. -/
def isDigitChar (c : Char) : Bool := decide ('0' ≤ c) && decide (c ≤ '9')

/-- ASCII model of the regex class `\w` (word characters). -/
def isWordChar (c : Char) : Bool := c.isAlpha || isDigitChar c || c == '_'

/-- ASCII model of the regex class `\s`, and of the whitespace removed by
`str.strip()`. -/
def isSpaceChar (c : Char) : Bool :=
  c == ' ' || c == '\t' || c == '\n' || c == '\r' || c == '\x0b' || c == '\x0c'

/-- Python `line.strip()` (ASCII whitespace model). -/
def pstrip (l : List Char) : List Char :=
  ((l.dropWhile isSpaceChar).reverse.dropWhile isSpaceChar).reverse

/-- Match a fixed-width sequence of character classes; used for the timestamp
part `\d{4}-\d{2}-\d{2} \d{2}:\d{2}:\d{2},\d{3}` shared by both structural
patterns (each `\d{k}` is a fixed repetition, so no backtracking exists). -/
def parseFixed : List (Char → Bool) → List Char → Option (List Char × List Char)
  | [], l => some ([], l)
  | _ :: _, [] => none
  | p :: ps, c :: cs =>
    if p c then
      match parseFixed ps cs with
      | some (a, r) => some (c :: a, r)
      | none => none
    else none

/-- `checkShape shape l` holds iff `l` has exactly the length of `shape` and
each character satisfies the corresponding class. -/
def checkShape : List (Char → Bool) → List Char → Bool
  | [], [] => true
  | p :: ps, c :: cs => p c && checkShape ps cs
  | _, _ => false

/-- The character classes of `\d{4}-\d{2}-\d{2} \d{2}:\d{2}:\d{2},\d{3}`. -/
def tsShape : List (Char → Bool) :=
  [isDigitChar, isDigitChar, isDigitChar, isDigitChar, fun c => c == '-',
   isDigitChar, isDigitChar, fun c => c == '-', isDigitChar, isDigitChar,
   fun c => c == ' ', isDigitChar, isDigitChar, fun c => c == ':',
   isDigitChar, isDigitChar, fun c => c == ':', isDigitChar, isDigitChar,
   fun c => c == ',', isDigitChar, isDigitChar, isDigitChar]

/-- Match a literal piece of the pattern, returning the rest of the input. -/
def expectLit : List Char → List Char → Option (List Char)
  | [], l => some l
  | _ :: _, [] => none
  | c :: cs, d :: ds => if d == c then expectLit cs ds else none

/-- Greedy maximal run of characters satisfying `p` (regex `X*` on a class). -/
def spanP (p : Char → Bool) : List Char → List Char × List Char
  | [] => ([], [])
  | c :: cs =>
    if p c then
      let (a, r) := spanP p cs
      (c :: a, r)
    else ([], c :: cs)

/-- Regex `X+` on a character class `X`: greedy nonempty run. -/
def span1 (p : Char → Bool) (l : List Char) : Option (List Char × List Char) :=
  let (a, r) := spanP p l
  if a.isEmpty then none else some (a, r)

/-- Regex `(.+)$` without DOTALL: a nonempty run of non-newline characters
followed by the end of the string or by one final newline (Python's `$`). -/
def dotPlusEnd (l : List Char) : Option (List Char) :=
  let (m, t) := spanP (fun c => !(c == '\n')) l
  if m.isEmpty then none
  else if t.isEmpty || t == ['\n'] then some m else none

/-- Regex `\s+(.+)$`: at least one whitespace character, preferring the
longest whitespace run that still lets `(.+)$` match — Python's greedy
matching with backtracking, made explicit. -/
def spacesThenMsg : List Char → Option (List Char)
  | [] => none
  | c :: cs =>
    if isSpaceChar c then
      match spacesThenMsg cs with
      | some m => some m
      | none => dotPlusEnd cs
    else none

/-- The literal `\[` preceded by the space after the timestamp group. -/
def litSpBracket : List Char := [' ', '[']

/-- The literal `\] ` after the thread group. -/
def litBracketSp : List Char := [']', ' ']

/-- The literal ` - ` between the module and message groups. -/
def litSepDash : List Char := [' ', '-', ' ']

/-- The class `[^\s-]` of the module group of `LOG_PATTERN`. -/
def modClassChar (c : Char) : Bool := !(isSpaceChar c) && !(c == '-')

/-- The five groups of `LOG_PATTERN`. -/
structure PrimMatch where
  timestamp : List Char
  thread : List Char
  level : List Char
  module : List Char
  message : List Char
  deriving DecidableEq, Repr

/-- The four groups of `ALT_LOG_PATTERN`. -/
structure AltMatch where
  timestamp : List Char
  thread : List Char
  level : List Char
  message : List Char
  deriving DecidableEq, Repr

/-- `re.match(LOG_PATTERN, line)` where
`LOG_PATTERN = ^(\d{4}-\d{2}-\d{2} \d{2}:\d{2}:\d{2},\d{3}) \[([^\]]+)\] (\w+)\s+([^\s-]+) - (.+)$`.
Each greedy class run (`[^\]]+`, `\w+`, `\s+`, `[^\s-]+`) is followed by a
literal or class whose first character the run's class excludes, so the
greedy-no-backtracking parse below is exactly Python's semantics. -/
def matchPrimary (l : List Char) : Option PrimMatch :=
  match parseFixed tsShape l with
  | none => none
  | some (ts, r1) =>
    match expectLit litSpBracket r1 with
    | none => none
    | some r2 =>
      match span1 (fun c => !(c == ']')) r2 with
      | none => none
      | some (th, r3) =>
        match expectLit litBracketSp r3 with
        | none => none
        | some r4 =>
          match span1 isWordChar r4 with
          | none => none
          | some (lvl, r5) =>
            match span1 isSpaceChar r5 with
            | none => none
            | some (_, r6) =>
              match span1 modClassChar r6 with
              | none => none
              | some (md, r7) =>
                match expectLit litSepDash r7 with
                | none => none
                | some r8 =>
                  match dotPlusEnd r8 with
                  | none => none
                  | some msg => some ⟨ts, th, lvl, md, msg⟩

/-- `re.match(ALT_LOG_PATTERN, line)` where
`ALT_LOG_PATTERN = ^(\d{4}-\d{2}-\d{2} \d{2}:\d{2}:\d{2},\d{3}) \[([^\]]+)\] (\w+)\s+(.+)$`. -/
def matchAlt (l : List Char) : Option AltMatch :=
  match parseFixed tsShape l with
  | none => none
  | some (ts, r1) =>
    match expectLit litSpBracket r1 with
    | none => none
    | some r2 =>
      match span1 (fun c => !(c == ']')) r2 with
      | none => none
      | some (th, r3) =>
        match expectLit litBracketSp r3 with
        | none => none
        | some r4 =>
          match span1 isWordChar r4 with
          | none => none
          | some (lvl, r5) =>
            match spacesThenMsg r5 with
            | none => none
            | some msg => some ⟨ts, th, lvl, msg⟩

def excChars : List Char := "Exception".toList
def javaDotChars : List Char := "java.".toList
def causedByChars : List Char := "Caused by:".toList
def atSpChars : List Char := "at ".toList

/-- Tail `\w+Exception` of the first alternative of
`STACK_TRACE_START_PATTERN`: the literal `Exception` consists of word
characters, so Python backtracks inside the greedy `\w+`; a match exists iff
`Exception` occurs after at least one word character with all the characters
before it being word characters — which is what this recursion decides. -/
def wordsThenException : List Char → Bool
  | [] => false
  | c :: cs => isWordChar c && (List.isPrefixOf excChars cs || wordsThenException cs)

/-- First alternative `java\.\w+\.\w+Exception` of `STACK_TRACE_START_PATTERN`. -/
def javaExceptionStart (l : List Char) : Bool :=
  match expectLit javaDotChars l with
  | none => false
  | some r1 =>
    match span1 isWordChar r1 with
    | none => false
    | some (_, r2) =>
      match r2 with
      | '.' :: r3 => wordsThenException r3
      | _ => false

/-- Third alternative `at [\w\.]+\(` of `STACK_TRACE_START_PATTERN`. -/
def atFrameStart (l : List Char) : Bool :=
  match expectLit atSpChars l with
  | none => false
  | some r1 =>
    match span1 (fun c => isWordChar c || c == '.') r1 with
    | none => false
    | some (_, r2) =>
      match r2 with
      | '(' :: _ => true
      | _ => false

/-- `re.match(STACK_TRACE_START_PATTERN, line) is not None` where
`STACK_TRACE_START_PATTERN = ^(java\.\w+\.\w+Exception|Caused by:|at [\w\.]+\()`. -/
def stackTraceStartMatch (l : List Char) : Bool :=
  javaExceptionStart l || List.isPrefixOf causedByChars l || atFrameStart l

/-- Python substring containment (`pat in line`). -/
def containsSeq (pat : List Char) : List Char → Bool
  | [] => List.isPrefixOf pat []
  | c :: cs => List.isPrefixOf pat (c :: cs) || containsSeq pat cs

/-- `is_stack_trace_line` from `create_log_db.py`. -/
def is_stack_trace_line (line : List Char) : Bool :=
  stackTraceStartMatch line || List.isPrefixOf atSpChars (pstrip line) ||
    containsSeq excChars line

/-- One element of `batch` / one row of the `logs` relation:
`(timestamp, thread, level, module, message, source_file, raw_log,
has_stack_trace)`. -/
structure LogEntry where
  timestamp : List Char
  thread : List Char
  level : List Char
  module : List Char
  message : List Char
  source_file : List Char
  raw_log : List Char
  has_stack_trace : Nat
  deriving DecidableEq, Repr

/-- The three shapes of dictionary returned by `parse_log_line`. -/
inductive ParseResult where
  | record (e : LogEntry)
  | stackTraceLine (l : List Char)
  | unparsed (e : LogEntry) (error : List Char)
  deriving DecidableEq, Repr

def cantParseMsg : List Char := "Could not parse log line with any pattern".toList

/-- `parse_log_line` from `create_log_db.py`: primary pattern first, then the
fallback pattern (module left empty), then the stack-trace heuristic, else an
unparsed line. -/
def parse_log_line (line source_file : List Char) : ParseResult :=
  match matchPrimary line with
  | some m =>
    ParseResult.record ⟨m.timestamp, m.thread, m.level, m.module, m.message,
      source_file, line, 0⟩
  | none =>
    match matchAlt line with
    | some m =>
      ParseResult.record ⟨m.timestamp, m.thread, m.level, [], m.message,
        source_file, line, 0⟩
    | none =>
      if is_stack_trace_line line then ParseResult.stackTraceLine line
      else ParseResult.unparsed ⟨[], [], [], [], line, source_file, line, 0⟩ cantParseMsg

/-- The SQLite sink, modelled per the spec's Storage Sink contract:
bulk inserts assign consecutive identifiers (`AUTOINCREMENT` starting at 1)
and the identifier of the most recently inserted record is what
`cursor.lastrowid` yields after a bulk insert. -/
structure DB where
  logs : List (Nat × LogEntry)
  stack_traces : List (Option Nat × List Char)
  parsing_errors : List (List Char × List Char × List Char)
  nextLogId : Nat
  deriving DecidableEq, Repr

/-- Assign consecutive identifiers to a batch of records. -/
def withIds (start : Nat) : List LogEntry → List (Nat × LogEntry)
  | [] => []
  | e :: es => (start, e) :: withIds (start + 1) es

/-- `cursor.executemany("INSERT INTO logs ...", batch)`. -/
def flushLogs (db : DB) (batch : List LogEntry) : DB :=
  { db with logs := db.logs ++ withIds db.nextLogId batch,
            nextLogId := db.nextLogId + batch.length }

/-- `cursor.executemany("INSERT INTO parsing_errors ...", error_batch)`. -/
def flushErrors (db : DB) (eb : List (List Char × List Char × List Char)) : DB :=
  { db with parsing_errors := db.parsing_errors ++ eb }

/-- `cursor.executemany("INSERT INTO stack_traces ...", stack_trace_batch)`. -/
def flushTraces (db : DB) (tb : List (Option Nat × List Char)) : DB :=
  { db with stack_traces := db.stack_traces ++ tb }

def batch_size : Nat := 1000

/-- The per-archive mutable state of `process_log_files`. -/
structure PState where
  batch : List LogEntry
  error_batch : List (List Char × List Char × List Char)
  stack_trace_batch : List (Option Nat × List Char)
  line_count : Nat
  current_log_entry : Option LogEntry
  current_stack_trace : List (List Char)
  last_log_id : Option Nat
  db : DB
  deriving DecidableEq, Repr

/-- `last_entry = list(batch[-1]); last_entry[7] = 1; batch[-1] = tuple(last_entry)`. -/
def setLastFlag : List LogEntry → List LogEntry
  | [] => []
  | [e] => [{ e with has_stack_trace := 1 }]
  | e :: es => e :: setLastFlag es

/-- `last_entry[4] += "\n" + line; last_entry[6] += "\n" + line` on `batch[-1]`. -/
def appendLast (line : List Char) : List LogEntry → List LogEntry
  | [] => []
  | [e] => [{ e with
              message := e.message ++ '\n' :: line,
              raw_log := e.raw_log ++ '\n' :: line }]
  | e :: es => e :: appendLast line es

def nlChars : List Char := "\n".toList

/-- `"\n".join(current_stack_trace)`. -/
def joinLines (ls : List (List Char)) : List Char := List.intercalate nlChars ls

def contErrMsg : List Char := "Continuation line without a parent log entry".toList

/-- Only produced on a dead branch, see `processLine`. -/
def keyErrMsg : List Char := "Exception: 'timestamp'".toList

/-- `re.match(LOG_PATTERN, line) is not None or re.match(ALT_LOG_PATTERN, line) is not None`. -/
def is_new_log_line (line : List Char) : Bool :=
  (matchPrimary line).isSome || (matchAlt line).isSome

/-- The body of the `for line in f` loop of `process_log_files`, for one raw
input line.  The periodic `conn.commit()` (every 100000 lines) only forces
durability and does not change any modelled state, so it is omitted. -/
def processLine (log_file : List Char) (st : PState) (rawLine : List Char) : PState :=
  let lc := st.line_count + 1
  let line := pstrip rawLine
  if line.isEmpty then { st with line_count := lc }
  else
    let is_new_log := is_new_log_line line
    -- `if current_stack_trace and is_new_log and last_log_id is not None:`
    let closeNow := !st.current_stack_trace.isEmpty && is_new_log && st.last_log_id.isSome
    let stb1 :=
      if closeNow then
        st.stack_trace_batch ++ [(st.last_log_id, joinLines st.current_stack_trace)]
      else st.stack_trace_batch
    let cst1 := if closeNow then [] else st.current_stack_trace
    let parsed := parse_log_line line log_file
    -- (batch, error_batch, current_log_entry, current_stack_trace) after the
    -- new-record / stack-trace-line / continuation branches
    let step :=
      if is_new_log then
        match parsed with
        | ParseResult.record e =>
          (st.batch ++ [{ e with has_stack_trace := 0 }], st.error_batch, some e, cst1)
        | ParseResult.unparsed _ err =>
          (st.batch, st.error_batch ++ [(line, log_file, err)], none, cst1)
        | ParseResult.stackTraceLine _ =>
          -- dead branch: a line matching a structural pattern always parses
          -- as a record; Python would raise a KeyError on `parsed["timestamp"]`,
          -- caught by the per-line handler and recorded as an error row
          (st.batch, st.error_batch ++ [(line, log_file, keyErrMsg)], none, cst1)
      else
        match parsed with
        | ParseResult.stackTraceLine sl =>
          (if st.current_log_entry.isSome && !st.batch.isEmpty then setLastFlag st.batch
           else st.batch,
           st.error_batch, st.current_log_entry, cst1 ++ [sl])
        | _ =>
          if st.current_log_entry.isSome then
            (if !st.batch.isEmpty then appendLast line st.batch else st.batch,
             st.error_batch, st.current_log_entry, cst1)
          else
            (st.batch, st.error_batch ++ [(line, log_file, contErrMsg)],
             st.current_log_entry, cst1)
    let batch2 := step.1
    let err2 := step.2.1
    let cle2 := step.2.2.1
    let cst2 := step.2.2.2
    -- `if len(batch) >= batch_size:` flush; `if current_stack_trace:` remember
    -- the identifier of the last record of the flushed batch
    let db1 := if batch2.length ≥ batch_size then flushLogs st.db batch2 else st.db
    let llid1 :=
      if batch2.length ≥ batch_size then
        if !cst2.isEmpty then some (st.db.nextLogId + batch2.length - 1) else st.last_log_id
      else st.last_log_id
    let batch3 := if batch2.length ≥ batch_size then [] else batch2
    let db2 := if err2.length ≥ batch_size then flushErrors db1 err2 else db1
    let err3 := if err2.length ≥ batch_size then [] else err2
    let db3 := if stb1.length ≥ batch_size then flushTraces db2 stb1 else db2
    let stb3 := if stb1.length ≥ batch_size then [] else stb1
    { batch := batch3, error_batch := err3, stack_trace_batch := stb3,
      line_count := lc, current_log_entry := cle2, current_stack_trace := cst2,
      last_log_id := llid1, db := db3 }

/-- The end-of-archive section of `process_log_files`: final flush of the
record batch (remembering the last assigned identifier if a stack trace is
pending), final close of a pending stack trace when an identifier is
available, then flush of the remaining error and stack-trace batches. -/
def finishFile (st : PState) : PState :=
  let finalFlush := !st.batch.isEmpty
  let db1 := if finalFlush then flushLogs st.db st.batch else st.db
  let llid1 :=
    if finalFlush then
      if !st.current_stack_trace.isEmpty then
        some (st.db.nextLogId + st.batch.length - 1)
      else st.last_log_id
    else st.last_log_id
  let closeFinal := !st.current_stack_trace.isEmpty && llid1.isSome
  let stb1 :=
    if closeFinal then st.stack_trace_batch ++ [(llid1, joinLines st.current_stack_trace)]
    else st.stack_trace_batch
  let db2 := if !st.error_batch.isEmpty then flushErrors db1 st.error_batch else db1
  let db3 := if !stb1.isEmpty then flushTraces db2 stb1 else db2
  { st with stack_trace_batch := stb1, last_log_id := llid1, db := db3 }

def initDB : DB := ⟨[], [], [], 1⟩

/-- The per-archive state initialisation of `process_log_files`. -/
def initPState (db : DB) : PState := ⟨[], [], [], 0, none, [], none, db⟩

/-- The per-line loop of `process_log_files` over one archive's lines. -/
def processLines (log_file : List Char) (db : DB) (lines : List (List Char)) : PState :=
  lines.foldl (processLine log_file) (initPState db)

/-- Processing of one whole archive against a given database state. -/
def processArchive (log_file : List Char) (db : DB) (lines : List (List Char)) : PState :=
  finishFile (processLines log_file db lines)

/-- `process_log_files` for a run consisting of a single archive, starting
from the freshly created database. -/
def process_log_files (log_file : List Char) (lines : List (List Char)) : PState :=
  processArchive log_file initDB lines

/-! ### The export utility `errors_to_parquet.py` (claim C10)

Only the columns the export decision logic reads are modelled on the rows
(`id`, `level`, `has_stack_trace` for `logs`; `log_id` for `stack_traces`);
DataFrames are modelled as lists of rows. -/

/-- The `--type` command-line choice. -/
inductive ExportType
  | parsing
  | logs
  | stack_traces
  | all
  | full_db
  deriving DecidableEq, Repr

/-- A row of the `logs` table as seen by the export utility. -/
structure ELogRow where
  id : Nat
  level : List Char
  has_stack_trace : Nat
  deriving DecidableEq, Repr

/-- A row of the `stack_traces` table as seen by the export utility. -/
structure ETraceRow where
  log_id : Nat
  stack_trace : List Char
  deriving DecidableEq, Repr

/-- The database as seen by the export utility. -/
structure EDB where
  logs : List ELogRow
  stack_traces : List ETraceRow
  parsing_errors : List (List Char × List Char × List Char)
  deriving DecidableEq, Repr

/-- `if limit: query += f" LIMIT {limit}"` — a `None` **or zero** limit leaves
the query unrestricted (Python truthiness), otherwise at most `n` rows. -/
def applyLimit {α : Type} (limit : Option Nat) (rows : List α) : List α :=
  match limit with
  | none => rows
  | some n => if n = 0 then rows else rows.take n

def levelERROR : List Char := "ERROR".toList
def levelCRITICAL : List Char := "CRITICAL".toList

/-- `query_parsing_errors`. -/
def query_parsing_errors (db : EDB) (limit : Option Nat) :
    List (List Char × List Char × List Char) :=
  applyLimit limit db.parsing_errors

/-- `query_error_logs`: `SELECT * FROM logs WHERE level IN ('ERROR', 'CRITICAL')`. -/
def query_error_logs (db : EDB) (limit : Option Nat) : List ELogRow :=
  applyLimit limit
    (db.logs.filter (fun r => r.level == levelERROR || r.level == levelCRITICAL))

/-- `query_stack_traces`: `SELECT * FROM stack_traces WHERE log_id IN (...)`,
empty when no log identifiers are supplied. -/
def query_stack_traces (db : EDB) (log_ids : List Nat) (limit : Option Nat) :
    List ETraceRow :=
  if log_ids.length > 0 then
    applyLimit limit (db.stack_traces.filter (fun r => log_ids.contains r.log_id))
  else []

/-- The three DataFrames assembled by `main` of `errors_to_parquet.py`; a
DataFrame is exported (saved to a parquet file) exactly when it is non-empty. -/
structure MainResult where
  parsing_errors_df : List (List Char × List Char × List Char)
  error_logs_df : List ELogRow
  stack_traces_df : List ETraceRow
  deriving DecidableEq, Repr

/-- The query/export decision flow of `main` in `errors_to_parquet.py`. -/
def exportMain (db : EDB) (ty : ExportType) (limit : Option Nat) : MainResult :=
  let parsing_errors_df :=
    if ty = ExportType.parsing ∨ ty = ExportType.all then query_parsing_errors db limit
    else []
  let error_logs_df :=
    if ty = ExportType.logs ∨ ty = ExportType.all then query_error_logs db limit
    else []
  let stack_traces_df :=
    if (ty = ExportType.stack_traces ∨ ty = ExportType.all) ∧ ¬error_logs_df.isEmpty then
      let log_ids_with_traces :=
        (error_logs_df.filter (fun r => r.has_stack_trace == 1)).map (fun r => r.id)
      if ¬log_ids_with_traces.isEmpty then query_stack_traces db log_ids_with_traces limit
      else []
    else []
  ⟨parsing_errors_df, error_logs_df, stack_traces_df⟩

/-! ### Lemmas about the parser combinators -/

/-- A line shaped as timestamp, bracketed thread, severity token, then the
text `TC` standing between the severity token and the first ` - ` separator,
then that separator and the message. -/
def mkPrimLine (tsC thC lvlC TC msgC : List Char) : List Char :=
  tsC ++ litSpBracket ++ thC ++ litBracketSp ++ lvlC ++ TC ++ litSepDash ++ msgC

/-- The archive name used by the concrete scenarios. -/
def fileC : List Char := "app.log.gz".toList

/-- A plain record line matched by the primary pattern. -/
def recL : List Char := "2025-03-06 00:00:00,024 [T-1] INFO mod - m".toList

/-- The `logs` row produced for `recL`. -/
def recRow (f : List Char) : LogEntry :=
  ⟨"2025-03-06 00:00:00,024".toList, "T-1".toList, "INFO".toList, "mod".toList,
    "m".toList, f, recL, 0⟩

/-- A line matching only the stack-trace heuristic. -/
def stL : List Char := "java.lang.BoomException: x".toList

/-- A line matching neither pattern nor the stack-trace heuristic. -/
def contL : List Char := "plain continuation text".toList

/-- The state after ingesting 1000 primary-match record lines from a fresh
database: the batch has just been flushed (with no stack trace pending, so
`last_log_id` is still `none`), and the 1000th record is the open record. -/
def state1000 : PState :=
  ⟨[], [], [], 1000, some (recRow fileC), [], none,
    ⟨withIds 1 (List.replicate 1000 (recRow fileC)), [], [], 1001⟩⟩

/-! ### Concrete inputs used by the claims -/

def l1C : List Char := "2025-03-06 00:00:00,024 [T-1] ERROR c.x.Y - boom".toList
def l2C : List Char := "java.lang.RuntimeException: boom".toList
def l3C : List Char := "\tat c.x.Y.run(Y.java:10)".toList
def l4C : List Char := "2025-03-06 00:00:01,000 [T-1] INFO c.x.Y - ok".toList
def traceTextC : List Char :=
  "java.lang.RuntimeException: boom\nat c.x.Y.run(Y.java:10)".toList
def nlpC : List Char := "not a log line".toList
def fooC : List Char := "java.lang.FooException: y".toList
def thirdC : List Char := "2025-03-06 00:00:02,000 [T-1] INFO c.x.Y - third".toList
def mergedC : List Char :=
  "java.lang.RuntimeException: boom\njava.lang.FooException: y".toList
def claimReasonC : List Char := "continuation line without a parent record".toList
def boomC : List Char := "boom".toList
def okC : List Char := "ok".toList
def boomEntryC : LogEntry :=
  ⟨"2025-03-06 00:00:00,024".toList, "T-1".toList, "ERROR".toList, "c.x.Y".toList,
    boomC, fileC, l1C, 0⟩

def c3wSt : PState := ⟨[], [], [], 5, none, [stL], some 7, initDB⟩

def c4wSt : PState := ⟨[recRow fileC], [], [], 1, some (recRow fileC), [], none, initDB⟩

def tsWC : List Char := "2025-03-06 00:00:00,024".toList
def thWC : List Char := "T-1".toList
def lvlWC : List Char := "ERROR".toList
def tcWC : List Char := " c.x.Y".toList
def msgWC : List Char := "boom".toList
def modWC : List Char := "c.x.Y".toList

theorem parseFixed_of_checkShape :
    ∀ (shape : List (Char → Bool)) (xs rest : List Char),
      checkShape shape xs = true → parseFixed shape (xs ++ rest) = some (xs, rest) := by
  intro shape
  induction shape with
  | nil =>
    intro xs rest h
    cases xs with
    | nil => rfl
    | cons c cs => simp [checkShape] at h
  | cons p ps ih =>
    intro xs rest h
    cases xs with
    | nil => simp [checkShape] at h
    | cons c cs =>
      rw [checkShape, Bool.and_eq_true] at h
      simp [parseFixed, h.1, ih cs rest h.2]

theorem parseFixed_sound :
    ∀ (shape : List (Char → Bool)) (l a r : List Char),
      parseFixed shape l = some (a, r) → l = a ++ r ∧ checkShape shape a = true := by
  intro shape
  induction shape with
  | nil =>
    intro l a r h
    rw [parseFixed] at h
    simp at h
    obtain ⟨h1, h2⟩ := h
    subst h1; subst h2
    exact ⟨rfl, rfl⟩
  | cons p ps ih =>
    intro l a r h
    cases l with
    | nil => simp [parseFixed] at h
    | cons c cs =>
      rw [parseFixed] at h
      split at h
      · rename_i hp
        cases hpf : parseFixed ps cs with
        | none => rw [hpf] at h; simp at h
        | some pr =>
          obtain ⟨a', r'⟩ := pr
          rw [hpf] at h
          simp at h
          obtain ⟨ha, hr⟩ := h
          obtain ⟨hl, hcs⟩ := ih cs a' r' hpf
          subst ha; subst hr
          constructor
          · simp [hl]
          · rw [checkShape, Bool.and_eq_true]
            exact ⟨hp, hcs⟩
      · simp at h

theorem checkShape_length :
    ∀ (shape : List (Char → Bool)) (a : List Char),
      checkShape shape a = true → a.length = shape.length := by
  intro shape
  induction shape with
  | nil =>
    intro a h
    cases a with
    | nil => rfl
    | cons c cs => simp [checkShape] at h
  | cons p ps ih =>
    intro a h
    cases a with
    | nil => simp [checkShape] at h
    | cons c cs =>
      rw [checkShape, Bool.and_eq_true] at h
      simp [ih cs h.2]

theorem expectLit_append : ∀ (lit r : List Char), expectLit lit (lit ++ r) = some r := by
  intro lit
  induction lit with
  | nil => intro r; rfl
  | cons c cs ih => intro r; simp [expectLit, ih]

theorem expectLit_sound :
    ∀ (lit l r : List Char), expectLit lit l = some r → l = lit ++ r := by
  intro lit
  induction lit with
  | nil =>
    intro l r h
    rw [expectLit] at h
    simp at h
    simp [h]
  | cons c cs ih =>
    intro l r h
    cases l with
    | nil => simp [expectLit] at h
    | cons d ds =>
      rw [expectLit] at h
      split at h
      · rename_i hdc
        have hd : d = c := by simpa using hdc
        subst hd
        simp [ih ds r h]
      · simp at h

theorem spanP_append (p : Char → Bool) :
    ∀ (xs rest : List Char), (∀ x ∈ xs, p x = true) →
      (∀ c cs, rest = c :: cs → p c = false) →
      spanP p (xs ++ rest) = (xs, rest) := by
  intro xs
  induction xs with
  | nil =>
    intro rest _ hrest
    cases rest with
    | nil => rfl
    | cons c cs => simp [spanP, hrest c cs rfl]
  | cons x xs ih =>
    intro rest hxs hrest
    have hx : p x = true := hxs x (by simp)
    simp [spanP, hx, ih rest (fun y hy => hxs y (by simp [hy])) hrest]

theorem spanP_sound (p : Char → Bool) :
    ∀ (l a r : List Char), spanP p l = (a, r) →
      l = a ++ r ∧ (∀ x ∈ a, p x = true) ∧ (∀ c cs, r = c :: cs → p c = false) := by
  intro l
  induction l with
  | nil =>
    intro a r h
    rw [spanP] at h
    simp at h
    obtain ⟨h1, h2⟩ := h
    subst h1; subst h2
    exact ⟨rfl, by simp, by intro c cs h; cases h⟩
  | cons c cs ih =>
    intro a r h
    rw [spanP] at h
    split at h
    · rename_i hc
      cases hsp : spanP p cs with
      | mk a' r' =>
        rw [hsp] at h
        simp at h
        obtain ⟨ha, hr⟩ := h
        obtain ⟨hl, hall, hhead⟩ := ih a' r' hsp
        subst ha; subst hr
        refine ⟨by simp [hl], ?_, hhead⟩
        intro x hx
        rcases List.mem_cons.mp hx with h1 | h2
        · subst h1; exact hc
        · exact hall x h2
    · rename_i hc
      simp at h
      obtain ⟨h1, h2⟩ := h
      subst h1; subst h2
      refine ⟨rfl, by simp, ?_⟩
      intro d ds hd
      cases hd
      exact Bool.not_eq_true _ ▸ (by simpa using hc)

theorem span1_append (p : Char → Bool) (xs rest : List Char) (hne : xs ≠ [])
    (hxs : ∀ x ∈ xs, p x = true)
    (hrest : ∀ c cs, rest = c :: cs → p c = false) :
    span1 p (xs ++ rest) = some (xs, rest) := by
  simp [span1, spanP_append p xs rest hxs hrest, hne]

theorem span1_sound (p : Char → Bool) (l a r : List Char)
    (h : span1 p l = some (a, r)) :
    l = a ++ r ∧ a ≠ [] ∧ (∀ x ∈ a, p x = true) ∧
      (∀ c cs, r = c :: cs → p c = false) := by
  cases hsp : spanP p l with
  | mk a' r' =>
    simp only [span1, hsp] at h
    split at h
    · simp at h
    · rename_i hne
      simp at h
      obtain ⟨ha, hr⟩ := h
      subst ha; subst hr
      obtain ⟨hl, hall, hhead⟩ := spanP_sound p l _ _ hsp
      exact ⟨hl, by simpa using hne, hall, hhead⟩

theorem dotPlusEnd_all (m : List Char) (hne : m ≠ [])
    (hm : ∀ c ∈ m, ¬ c = '\n') : dotPlusEnd m = some m := by
  have h0 : spanP (fun c => !(c == '\n')) m = (m, []) := by
    have := spanP_append (fun c => !(c == '\n')) m []
      (fun x hx => by simp [hm x hx]) (by intro c cs h; cases h)
    simpa using this
  simp [dotPlusEnd, h0, hne]

theorem dotPlusEnd_sound (l m : List Char) (h : dotPlusEnd l = some m) :
    (l = m ∨ l = m ++ ['\n']) ∧ m ≠ [] ∧ (∀ c ∈ m, ¬ c = '\n') := by
  cases hsp : spanP (fun c => !(c == '\n')) l with
  | mk a t =>
    simp only [dotPlusEnd, hsp] at h
    obtain ⟨hl, hall, hhead⟩ := spanP_sound _ l a t hsp
    split at h
    · simp at h
    · rename_i hne
      split at h
      · rename_i ht
        simp at h
        subst h
        rcases Bool.or_eq_true _ _ |>.mp ht with h1 | h2
        · refine ⟨Or.inl ?_, by simpa using hne, fun c hc => by simpa using hall c hc⟩
          have : t = [] := by simpa using h1
          simpa [this] using hl
        · refine ⟨Or.inr ?_, by simpa using hne, fun c hc => by simpa using hall c hc⟩
          have : t = ['\n'] := by simpa using h2
          simpa [this] using hl
      · simp at h

/-! ### Structural analysis of the primary pattern (claim C5) -/

theorem isSpace_not_word (c : Char) (h : isSpaceChar c = true) : isWordChar c = false := by
  have hs : c = ' ' ∨ c = '\t' ∨ c = '\n' ∨ c = '\r' ∨ c = '\x0b' ∨ c = '\x0c' := by
    simpa [isSpaceChar, or_assoc] using h
  rcases hs with h | h | h | h | h | h <;> subst h <;> decide

theorem modClass_not_space (c : Char) (h : modClassChar c = true) :
    isSpaceChar c = false := by
  rw [modClassChar, Bool.and_eq_true] at h
  simpa using h.1

theorem modClass_not_dash (c : Char) (h : modClassChar c = true) : ¬ c = '-' := by
  rw [modClassChar, Bool.and_eq_true] at h
  simpa using h.2

theorem matchPrimary_of_shape (tsC thC lvlC W M msgC : List Char)
    (hts : checkShape tsShape tsC = true)
    (hth : thC ≠ []) (hth2 : ∀ c ∈ thC, ¬ c = ']')
    (hlvl : lvlC ≠ []) (hlvl2 : ∀ c ∈ lvlC, isWordChar c = true)
    (hW : W ≠ []) (hW2 : ∀ c ∈ W, isSpaceChar c = true)
    (hM : M ≠ []) (hM2 : ∀ c ∈ M, modClassChar c = true)
    (hmsg : msgC ≠ []) (hmsg2 : ∀ c ∈ msgC, ¬ c = '\n') :
    matchPrimary (mkPrimLine tsC thC lvlC (W ++ M) msgC) =
      some ⟨tsC, thC, lvlC, M, msgC⟩ := by
  have h1 : parseFixed tsShape
      (tsC ++ (litSpBracket ++ (thC ++ (litBracketSp ++
        (lvlC ++ (W ++ (M ++ (litSepDash ++ msgC)))))))) =
      some (tsC, litSpBracket ++ (thC ++ (litBracketSp ++
        (lvlC ++ (W ++ (M ++ (litSepDash ++ msgC))))))) :=
    parseFixed_of_checkShape _ _ _ hts
  have h2 : expectLit litSpBracket (litSpBracket ++ (thC ++ (litBracketSp ++
      (lvlC ++ (W ++ (M ++ (litSepDash ++ msgC))))))) =
      some (thC ++ (litBracketSp ++ (lvlC ++ (W ++ (M ++ (litSepDash ++ msgC)))))) :=
    expectLit_append _ _
  have h3 : span1 (fun c => !(c == ']'))
      (thC ++ (litBracketSp ++ (lvlC ++ (W ++ (M ++ (litSepDash ++ msgC)))))) =
      some (thC, litBracketSp ++ (lvlC ++ (W ++ (M ++ (litSepDash ++ msgC))))) := by
    refine span1_append _ _ _ hth (fun x hx => by simp [hth2 x hx]) ?_
    intro c cs h
    have hc : c = ']' := by
      have : litBracketSp ++ (lvlC ++ (W ++ (M ++ (litSepDash ++ msgC)))) =
          ']' :: (' ' :: (lvlC ++ (W ++ (M ++ (litSepDash ++ msgC))))) := rfl
      rw [this] at h
      exact (List.cons.injEq _ _ _ _ ▸ h).1.symm ▸ rfl
    simp [hc]
  have h4 : expectLit litBracketSp (litBracketSp ++
      (lvlC ++ (W ++ (M ++ (litSepDash ++ msgC))))) =
      some (lvlC ++ (W ++ (M ++ (litSepDash ++ msgC)))) := expectLit_append _ _
  have h5 : span1 isWordChar (lvlC ++ (W ++ (M ++ (litSepDash ++ msgC)))) =
      some (lvlC, W ++ (M ++ (litSepDash ++ msgC))) := by
    refine span1_append _ _ _ hlvl hlvl2 ?_
    intro c cs h
    cases W with
    | nil => exact absurd rfl hW
    | cons w ws =>
      have hc : c = w := by
        have : (w :: ws) ++ (M ++ (litSepDash ++ msgC)) =
            w :: (ws ++ (M ++ (litSepDash ++ msgC))) := rfl
        rw [this] at h
        injection h with h1 _
        exact h1.symm
      subst hc
      exact isSpace_not_word c (hW2 c (by simp))
  have h6 : span1 isSpaceChar (W ++ (M ++ (litSepDash ++ msgC))) =
      some (W, M ++ (litSepDash ++ msgC)) := by
    refine span1_append _ _ _ hW hW2 ?_
    intro c cs h
    cases M with
    | nil => exact absurd rfl hM
    | cons m ms =>
      have hc : c = m := by
        have : (m :: ms) ++ (litSepDash ++ msgC) = m :: (ms ++ (litSepDash ++ msgC)) := rfl
        rw [this] at h
        injection h with h1 _
        exact h1.symm
      subst hc
      exact modClass_not_space c (hM2 c (by simp))
  have h7 : span1 modClassChar (M ++ (litSepDash ++ msgC)) =
      some (M, litSepDash ++ msgC) := by
    refine span1_append _ _ _ hM hM2 ?_
    intro c cs h
    have hc : c = ' ' := by
      have : litSepDash ++ msgC = ' ' :: ('-' :: (' ' :: msgC)) := rfl
      rw [this] at h
      injection h with h1 _
      exact h1.symm
    subst hc
    decide
  have h8 : expectLit litSepDash (litSepDash ++ msgC) = some msgC := expectLit_append _ _
  have h9 : dotPlusEnd msgC = some msgC := dotPlusEnd_all _ hmsg hmsg2
  have hassoc : mkPrimLine tsC thC lvlC (W ++ M) msgC =
      tsC ++ (litSpBracket ++ (thC ++ (litBracketSp ++
        (lvlC ++ (W ++ (M ++ (litSepDash ++ msgC))))))) := by
    simp [mkPrimLine]
  rw [hassoc]
  simp only [matchPrimary, h1, h2, h3, h4, h5, h6, h7, h8, h9]

theorem matchPrimary_sound_structured (tsC thC lvlC TC msgC : List Char) (g : PrimMatch)
    (hts : checkShape tsShape tsC = true)
    (hth : thC ≠ []) (hth2 : ∀ c ∈ thC, ¬ c = ']')
    (hlvl : lvlC ≠ []) (hlvl2 : ∀ c ∈ lvlC, isWordChar c = true)
    (hTChead : ∀ c cs, TC = c :: cs → isWordChar c = false)
    (h : matchPrimary (mkPrimLine tsC thC lvlC TC msgC) = some g) :
    ∃ W M V2 msg,
      TC ++ (litSepDash ++ msgC) = W ++ (M ++ (litSepDash ++ V2)) ∧
      W ≠ [] ∧ (∀ c ∈ W, isSpaceChar c = true) ∧
      M ≠ [] ∧ (∀ c ∈ M, modClassChar c = true) ∧
      dotPlusEnd V2 = some msg ∧
      g = ⟨tsC, thC, lvlC, M, msg⟩ := by
  have h1 : parseFixed tsShape
      (tsC ++ (litSpBracket ++ (thC ++ (litBracketSp ++
        (lvlC ++ (TC ++ (litSepDash ++ msgC))))))) =
      some (tsC, litSpBracket ++ (thC ++ (litBracketSp ++
        (lvlC ++ (TC ++ (litSepDash ++ msgC)))))) :=
    parseFixed_of_checkShape _ _ _ hts
  have h2 : expectLit litSpBracket (litSpBracket ++ (thC ++ (litBracketSp ++
      (lvlC ++ (TC ++ (litSepDash ++ msgC)))))) =
      some (thC ++ (litBracketSp ++ (lvlC ++ (TC ++ (litSepDash ++ msgC))))) :=
    expectLit_append _ _
  have h3 : span1 (fun c => !(c == ']'))
      (thC ++ (litBracketSp ++ (lvlC ++ (TC ++ (litSepDash ++ msgC))))) =
      some (thC, litBracketSp ++ (lvlC ++ (TC ++ (litSepDash ++ msgC)))) := by
    refine span1_append _ _ _ hth (fun x hx => by simp [hth2 x hx]) ?_
    intro c cs hcc
    have hc : c = ']' := by
      have he : litBracketSp ++ (lvlC ++ (TC ++ (litSepDash ++ msgC))) =
          ']' :: (' ' :: (lvlC ++ (TC ++ (litSepDash ++ msgC)))) := rfl
      rw [he] at hcc
      injection hcc with hc1 _
      exact hc1.symm
    simp [hc]
  have h4 : expectLit litBracketSp (litBracketSp ++
      (lvlC ++ (TC ++ (litSepDash ++ msgC)))) =
      some (lvlC ++ (TC ++ (litSepDash ++ msgC))) := expectLit_append _ _
  have h5 : span1 isWordChar (lvlC ++ (TC ++ (litSepDash ++ msgC))) =
      some (lvlC, TC ++ (litSepDash ++ msgC)) := by
    refine span1_append _ _ _ hlvl hlvl2 ?_
    intro c cs hcc
    cases hTC0 : TC with
    | nil =>
      subst hTC0
      have hc : c = ' ' := by
        have he : ([] : List Char) ++ (litSepDash ++ msgC) =
            ' ' :: ('-' :: (' ' :: msgC)) := rfl
        rw [he] at hcc
        injection hcc with hc1 _
        exact hc1.symm
      subst hc
      decide
    | cons t ts0 =>
      subst hTC0
      have hc : c = t := by
        have he : (t :: ts0) ++ (litSepDash ++ msgC) =
            t :: (ts0 ++ (litSepDash ++ msgC)) := rfl
        rw [he] at hcc
        injection hcc with hc1 _
        exact hc1.symm
      subst hc
      exact hTChead c ts0 rfl
  have hassoc : mkPrimLine tsC thC lvlC TC msgC =
      tsC ++ (litSpBracket ++ (thC ++ (litBracketSp ++
        (lvlC ++ (TC ++ (litSepDash ++ msgC)))))) := by
    simp [mkPrimLine]
  rw [hassoc] at h
  simp only [matchPrimary, h1, h2, h3, h4, h5] at h
  cases h6 : span1 isSpaceChar (TC ++ (litSepDash ++ msgC)) with
  | none => simp only [h6] at h; simp at h
  | some p6 =>
    obtain ⟨W, U'⟩ := p6
    simp only [h6] at h
    obtain ⟨hU, hWne, hWall, _⟩ := span1_sound _ _ _ _ h6
    cases h7 : span1 modClassChar U' with
    | none => simp only [h7] at h; simp at h
    | some p7 =>
      obtain ⟨M, V⟩ := p7
      simp only [h7] at h
      obtain ⟨hU', hMne, hMall, _⟩ := span1_sound _ _ _ _ h7
      cases h8 : expectLit litSepDash V with
      | none => simp only [h8] at h; simp at h
      | some V2 =>
        simp only [h8] at h
        have hV : V = litSepDash ++ V2 := expectLit_sound _ _ _ h8
        cases h9 : dotPlusEnd V2 with
        | none => simp only [h9] at h; simp at h
        | some msg =>
          simp only [h9] at h
          simp at h
          refine ⟨W, M, V2, msg, ?_, hWne, hWall, hMne, hMall, h9, h.symm⟩
          rw [hU, hU', hV]

/-- If the whitespace run `W` and module run `M` matched by the primary
pattern are followed by a ` - ` literal, and the first ` - ` occurrence in
the line sits right after `TC` (no occurrence inside `TC ++ " -"`), then the
matched separator is that first occurrence: `W ++ M` is exactly `TC`. -/
theorem sep_align (TC W M V2 msgC : List Char)
    (hW2 : ∀ c ∈ W, isSpaceChar c = true)
    (hM2 : ∀ c ∈ M, modClassChar c = true)
    (hsep : ¬ litSepDash <:+: (TC ++ [' ', '-']))
    (heq : W ++ (M ++ (litSepDash ++ V2)) = TC ++ (litSepDash ++ msgC)) :
    W ++ M = TC ∧ V2 = msgC := by
  have heq' : (W ++ M) ++ (litSepDash ++ V2) = TC ++ (litSepDash ++ msgC) := by
    simpa [List.append_assoc] using heq
  rcases List.append_eq_append_iff.mp heq' with ⟨a', hTC, hrest⟩ | ⟨c', hWM, hrest⟩
  · -- TC = (W ++ M) ++ a'
    cases a' with
    | nil =>
      constructor
      · simpa using hTC.symm
      · have : litSepDash ++ V2 = litSepDash ++ msgC := by simpa using hrest
        simpa [litSepDash] using this
    | cons x a'' =>
      have hx : x = ' ' := by
        have h0 : ' ' :: ('-' :: (' ' :: V2)) = x :: (a'' ++ (litSepDash ++ msgC)) := by
          simpa [litSepDash] using hrest
        injection h0 with h1 _
        exact h1.symm
      subst hx
      cases a'' with
      | nil =>
        exfalso
        have h0 : ' ' :: ('-' :: (' ' :: V2)) = ' ' :: (' ' :: ('-' :: (' ' :: msgC))) := by
          simp only [litSepDash] at hrest
          exact hrest
        injection h0 with _ h1
        injection h1 with h2 _
        exact absurd h2 (by decide)
      | cons y a3 =>
        have hy : y = '-' := by
          have h0 : ' ' :: ('-' :: (' ' :: V2)) =
              ' ' :: (y :: (a3 ++ (litSepDash ++ msgC))) := by
            simpa [litSepDash] using hrest
          injection h0 with _ h1
          injection h1 with h2 _
          exact h2.symm
        subst hy
        cases a3 with
        | nil =>
          exfalso
          apply hsep
          refine ⟨W ++ M, ['-'], ?_⟩
          rw [hTC]
          simp [litSepDash]
        | cons z a4 =>
          exfalso
          have hz : z = ' ' := by
            have h0 : ' ' :: ('-' :: (' ' :: V2)) =
                ' ' :: ('-' :: (z :: (a4 ++ (litSepDash ++ msgC)))) := by
              simpa [litSepDash] using hrest
            injection h0 with _ h1
            injection h1 with _ h2
            injection h2 with h3 _
            exact h3.symm
          subst hz
          apply hsep
          refine ⟨W ++ M, a4 ++ [' ', '-'], ?_⟩
          rw [hTC]
          simp [litSepDash]
  · -- W ++ M = TC ++ c'
    cases c' with
    | nil =>
      constructor
      · simpa using hWM
      · have : litSepDash ++ msgC = litSepDash ++ V2 := by simpa using hrest
        have h0 := by simpa [litSepDash] using this
        exact h0.symm
    | cons x c'' =>
      have hx : x = ' ' := by
        have h0 : ' ' :: ('-' :: (' ' :: msgC)) = x :: (c'' ++ (litSepDash ++ V2)) := by
          simpa [litSepDash] using hrest
        injection h0 with h1 _
        exact h1.symm
      subst hx
      cases c'' with
      | nil =>
        exfalso
        have h0 : ' ' :: ('-' :: (' ' :: msgC)) = ' ' :: (' ' :: ('-' :: (' ' :: V2))) := by
          simp only [litSepDash] at hrest
          exact hrest
        injection h0 with _ h1
        injection h1 with h2 _
        exact absurd h2 (by decide)
      | cons y c3 =>
        exfalso
        have hy : y = '-' := by
          have h0 : ' ' :: ('-' :: (' ' :: msgC)) =
              ' ' :: (y :: (c3 ++ (litSepDash ++ V2))) := by
            simpa [litSepDash] using hrest
          injection h0 with _ h1
          injection h1 with h2 _
          exact h2.symm
        subst hy
        have hdash : '-' ∈ W ++ M := by
          rw [hWM]
          simp
        rcases List.mem_append.mp hdash with hmem | hmem
        · have := hW2 '-' hmem
          simp [isSpaceChar] at this
        · have := hM2 '-' hmem
          simp [modClassChar] at this

theorem dropWhile_ws (W M : List Char) (hW : ∀ c ∈ W, isSpaceChar c = true)
    (hMhead : ∀ c cs, M = c :: cs → isSpaceChar c = false) :
    (W ++ M).dropWhile isSpaceChar = M := by
  induction W with
  | nil =>
    cases M with
    | nil => rfl
    | cons m ms => simp [List.dropWhile_cons, hMhead m ms rfl]
  | cons w ws ih =>
    simp [List.dropWhile_cons, hW w (by simp), ih (fun c hc => hW c (by simp [hc]))]

theorem modClass_iff (c : Char) :
    modClassChar c = true ↔ (isSpaceChar c = false ∧ ¬ c = '-') := by
  rw [modClassChar, Bool.and_eq_true]
  constructor
  · intro ⟨h1, h2⟩
    exact ⟨by simpa using h1, by simpa using h2⟩
  · intro ⟨h1, h2⟩
    exact ⟨by simpa using h1, by simpa using h2⟩

/-- **C5 (amended).**  For every line with a well-formed timestamp, bracketed
thread, and severity token, whose text `TC` between the severity token and
the first ` - ` separator contains no earlier ` - ` occurrence: the primary
pattern matches exactly when `TC` consists of a nonempty whitespace run
followed by a nonempty token containing neither whitespace nor any dash
character; and on every primary match the extracted module equals that token
(the between-text stripped of its leading whitespace) and contains no
whitespace. -/
theorem C5_primary_module_characterization
    (tsC thC lvlC TC msgC : List Char)
    (hts : checkShape tsShape tsC = true)
    (hth : thC ≠ []) (hth2 : ∀ c ∈ thC, ¬ c = ']')
    (hlvl : lvlC ≠ []) (hlvl2 : ∀ c ∈ lvlC, isWordChar c = true)
    (hTChead : ∀ c cs, TC = c :: cs → isWordChar c = false)
    (hsep : ¬ litSepDash <:+: (TC ++ [' ', '-']))
    (hmsg : msgC ≠ []) (hmsg2 : ∀ c ∈ msgC, ¬ c = '\n') :
    ((matchPrimary (mkPrimLine tsC thC lvlC TC msgC)).isSome ↔
      ∃ W M, TC = W ++ M ∧ W ≠ [] ∧ (∀ c ∈ W, isSpaceChar c = true) ∧
        M ≠ [] ∧ (∀ c ∈ M, isSpaceChar c = false ∧ ¬ c = '-')) ∧
    (∀ g, matchPrimary (mkPrimLine tsC thC lvlC TC msgC) = some g →
      g.timestamp = tsC ∧ g.thread = thC ∧ g.level = lvlC ∧
      g.module = TC.dropWhile isSpaceChar ∧ g.message = msgC ∧
      ∀ c ∈ g.module, isSpaceChar c = false) := by
  have core : ∀ g, matchPrimary (mkPrimLine tsC thC lvlC TC msgC) = some g →
      ∃ W M, TC = W ++ M ∧ W ≠ [] ∧ (∀ c ∈ W, isSpaceChar c = true) ∧
        M ≠ [] ∧ (∀ c ∈ M, modClassChar c = true) ∧
        g = ⟨tsC, thC, lvlC, M, msgC⟩ := by
    intro g hg
    obtain ⟨W, M, V2, msg, hTCeq, hWne, hWall, hMne, hMall, hdot, hgeq⟩ :=
      matchPrimary_sound_structured tsC thC lvlC TC msgC g hts hth hth2 hlvl hlvl2
        hTChead hg
    obtain ⟨hWM, hV2⟩ := sep_align TC W M V2 msgC hWall hMall hsep hTCeq.symm
    have hmsgeq : msg = msgC := by
      rw [hV2] at hdot
      have h2 := dotPlusEnd_all msgC hmsg hmsg2
      rw [h2] at hdot
      injection hdot.symm
    subst hmsgeq
    exact ⟨W, M, hWM.symm, hWne, hWall, hMne, hMall, hgeq⟩
  constructor
  · constructor
    · intro hsome
      obtain ⟨g, hg⟩ := Option.isSome_iff_exists.mp hsome
      obtain ⟨W, M, hWM, hWne, hWall, hMne, hMall, _⟩ := core g hg
      exact ⟨W, M, hWM, hWne, hWall, hMne, fun c hc => (modClass_iff c).mp (hMall c hc)⟩
    · rintro ⟨W, M, hWM, hWne, hWall, hMne, hMall⟩
      rw [hWM]
      rw [matchPrimary_of_shape tsC thC lvlC W M msgC hts hth hth2 hlvl hlvl2
        hWne hWall hMne (fun c hc => (modClass_iff c).mpr (hMall c hc)) hmsg hmsg2]
      rfl
  · intro g hg
    obtain ⟨W, M, hWM, hWne, hWall, hMne, hMall, hgeq⟩ := core g hg
    subst hgeq
    refine ⟨rfl, rfl, rfl, ?_, rfl, ?_⟩
    · rw [hWM]
      exact (dropWhile_ws W M hWall (fun c cs hc => by
        have : c ∈ M := by simp [hc]
        exact modClass_not_space c (hMall c this))).symm
    · intro c hc
      exact modClass_not_space c (hMall c hc)

/-! ### Concrete lines and step lemmas for the batch-flush scenarios -/

theorem pstrip_recL : pstrip recL = recL := by decide

theorem recL_not_empty : recL.isEmpty = false := by decide

theorem isnew_recL : is_new_log_line recL = true := by decide

theorem parse_recL (f : List Char) :
    parse_log_line recL f = ParseResult.record (recRow f) := by
  have h : matchPrimary recL = some ⟨"2025-03-06 00:00:00,024".toList,
      "T-1".toList, "INFO".toList, "mod".toList, "m".toList⟩ := by decide
  simp [parse_log_line, h, recRow]

theorem processLine_recL (f : List Char) (st : PState)
    (hcst : st.current_stack_trace = [])
    (hb : st.batch.length + 1 < batch_size)
    (he : st.error_batch.length < batch_size)
    (hs : st.stack_trace_batch.length < batch_size) :
    processLine f st recL =
      { st with batch := st.batch ++ [recRow f],
                line_count := st.line_count + 1,
                current_log_entry := some (recRow f) } := by
  have hflush : ¬ ((st.batch ++ [recRow f]).length ≥ batch_size) := by
    simp only [List.length_append, List.length_cons, List.length_nil]
    omega
  have herr : ¬ (st.error_batch.length ≥ batch_size) := by omega
  have hstb : ¬ (st.stack_trace_batch.length ≥ batch_size) := by omega
  simp only [processLine, pstrip_recL, recL_not_empty, isnew_recL, parse_recL f, hcst,
    List.isEmpty_nil, Bool.not_true, Bool.false_and, Bool.and_false, Bool.true_and,
    Bool.and_true, if_false, Bool.false_eq_true, if_neg hflush, if_neg herr,
    if_neg hstb]
  have hflush2 : ¬ (batch_size ≤ st.batch.length + 1) := by omega
  have herr2 : ¬ (batch_size ≤ st.error_batch.length) := by omega
  have hstb2 : ¬ (batch_size ≤ st.stack_trace_batch.length) := by omega
  simp [recRow, if_neg hflush2, if_neg herr2, if_neg hstb2]

theorem processLine_recL_flush (f : List Char) (st : PState)
    (hcst : st.current_stack_trace = [])
    (hb : st.batch.length + 1 ≥ batch_size)
    (he : st.error_batch.length < batch_size)
    (hs : st.stack_trace_batch.length < batch_size) :
    processLine f st recL =
      { st with batch := [],
                line_count := st.line_count + 1,
                current_log_entry := some (recRow f),
                db := flushLogs st.db (st.batch ++ [recRow f]) } := by
  simp only [processLine, pstrip_recL, recL_not_empty, isnew_recL, parse_recL f, hcst,
    List.isEmpty_nil, Bool.not_true, Bool.false_and, Bool.and_false, Bool.true_and,
    Bool.and_true, if_false, Bool.false_eq_true]
  have hflush2 : batch_size ≤ st.batch.length + 1 := by omega
  have herr2 : ¬ (batch_size ≤ st.error_batch.length) := by omega
  have hstb2 : ¬ (batch_size ≤ st.stack_trace_batch.length) := by omega
  simp [recRow, if_pos hflush2, if_neg herr2, if_neg hstb2]

theorem pstrip_stL : pstrip stL = stL := by decide

theorem stL_not_empty : stL.isEmpty = false := by decide

theorem isnew_stL : is_new_log_line stL = false := by decide

theorem parse_stL (f : List Char) :
    parse_log_line stL f = ParseResult.stackTraceLine stL := by
  have h1 : matchPrimary stL = none := by decide
  have h2 : matchAlt stL = none := by decide
  have h3 : is_stack_trace_line stL = true := by decide
  simp [parse_log_line, h1, h2, h3]

theorem processLine_stL_flushed (f : List Char) (st : PState)
    (hbatch : st.batch = [])
    (he : st.error_batch.length < batch_size)
    (hs : st.stack_trace_batch.length < batch_size) :
    processLine f st stL =
      { st with line_count := st.line_count + 1,
                current_stack_trace :=
                  (if !st.current_stack_trace.isEmpty && is_new_log_line stL &&
                      st.last_log_id.isSome then [] else st.current_stack_trace) ++ [stL] } := by
  simp only [processLine, pstrip_stL, stL_not_empty, isnew_stL, parse_stL f, hbatch,
    List.isEmpty_nil, Bool.not_true, Bool.false_and, Bool.and_false, Bool.true_and,
    Bool.and_true, if_false, Bool.false_eq_true]
  have herr2 : ¬ (batch_size ≤ st.error_batch.length) := by omega
  have hstb2 : ¬ (batch_size ≤ st.stack_trace_batch.length) := by omega
  have hbs0 : ¬ (batch_size = 0) := by decide
  simp [if_neg herr2, if_neg hstb2, hbs0]

theorem pstrip_contL : pstrip contL = contL := by decide

theorem contL_not_empty : contL.isEmpty = false := by decide

theorem isnew_contL : is_new_log_line contL = false := by decide

theorem parse_contL (f : List Char) :
    parse_log_line contL f =
      ParseResult.unparsed ⟨[], [], [], [], contL, f, contL, 0⟩ cantParseMsg := by
  have h1 : matchPrimary contL = none := by decide
  have h2 : matchAlt contL = none := by decide
  have h3 : is_stack_trace_line contL = false := by decide
  simp [parse_log_line, h1, h2, h3]

theorem processLine_contL_flushed (f : List Char) (st : PState)
    (hbatch : st.batch = [])
    (hcle : st.current_log_entry.isSome = true)
    (he : st.error_batch.length < batch_size)
    (hs : st.stack_trace_batch.length < batch_size) :
    processLine f st contL =
      { st with line_count := st.line_count + 1,
                current_stack_trace :=
                  if !st.current_stack_trace.isEmpty && is_new_log_line contL &&
                      st.last_log_id.isSome then [] else st.current_stack_trace } := by
  simp only [processLine, pstrip_contL, contL_not_empty, isnew_contL, parse_contL f,
    hbatch, hcle, List.isEmpty_nil, Bool.not_true, Bool.false_and, Bool.and_false,
    Bool.true_and, Bool.and_true, if_false, Bool.false_eq_true]
  have herr2 : ¬ (batch_size ≤ st.error_batch.length) := by omega
  have hstb2 : ¬ (batch_size ≤ st.stack_trace_batch.length) := by omega
  have hbs0 : ¬ (batch_size = 0) := by decide
  simp [if_neg herr2, if_neg hstb2, hbs0]

theorem foldl_recL (f : List Char) :
    ∀ (n : Nat) (st : PState),
      st.current_stack_trace = [] →
      st.current_log_entry = some (recRow f) →
      st.error_batch.length < batch_size →
      st.stack_trace_batch.length < batch_size →
      st.batch.length + n < batch_size →
      List.foldl (processLine f) st (List.replicate n recL) =
        { st with batch := st.batch ++ List.replicate n (recRow f),
                  line_count := st.line_count + n } := by
  intro n
  induction n with
  | zero =>
    intro st h1 h2 h3 h4 h5
    simp
  | succ n ih =>
    intro st h1 h2 h3 h4 h5
    rw [List.replicate_succ, List.foldl_cons,
      processLine_recL f st h1 (by omega) h3 h4]
    rw [ih _ (by simp [h1]) (by simp) (by simpa using h3) (by simpa using h4)
      (by simp; omega)]
    simp [List.replicate_succ, h2, Nat.add_comm, Nat.add_assoc, Nat.add_left_comm]

theorem withIds_map_val {α : Type} (g : LogEntry → α) :
    ∀ (s : Nat) (l : List LogEntry),
      (withIds s l).map (fun r => g r.2) = l.map g := by
  intro s l
  induction l generalizing s with
  | nil => rfl
  | cons e es ih => simp [withIds, ih]

theorem replicate_add_two {α : Type} (n : Nat) (x : α) :
    List.replicate (n + 2) x = x :: (List.replicate n x ++ [x]) := by
  rw [List.replicate_succ, List.replicate_succ']

theorem processLines_1000recL :
    processLines fileC initDB (List.replicate 1000 recL) = state1000 := by
  have hsplit : List.replicate 1000 recL = recL :: (List.replicate 998 recL ++ [recL]) := by
    rw [show (1000 : Nat) = 998 + 2 from rfl, replicate_add_two]
  rw [processLines, hsplit, List.foldl_cons]
  rw [processLine_recL fileC (initPState initDB) rfl (by decide) (by decide) (by decide)]
  rw [List.foldl_append]
  rw [foldl_recL fileC 998 _ rfl rfl (by decide) (by decide)
    (by simp [initPState, batch_size])]
  rw [List.foldl_cons, List.foldl_nil]
  rw [processLine_recL_flush fileC _ rfl
    (by simp [initPState, batch_size]) (by decide) (by decide)]
  have hl : (([] ++ [recRow fileC]) ++ List.replicate 998 (recRow fileC)) ++ [recRow fileC] =
      List.replicate 1000 (recRow fileC) := by
    rw [show (1000 : Nat) = 998 + 2 from rfl, replicate_add_two]
    simp
  simp [state1000, initPState, initDB, flushLogs, hl]

theorem finishFile_trivial (st : PState)
    (hb : st.batch = []) (he : st.error_batch = []) (hs : st.stack_trace_batch = [])
    (hl : st.last_log_id = none) :
    finishFile st = st := by
  obtain ⟨b, eb, sb, lc, cle, cst, llid, db⟩ := st
  simp only at hb he hs hl
  subst hb; subst he; subst hs; subst hl
  simp [finishFile]

theorem processLines_1000recL_contL :
    processLines fileC initDB (List.replicate 1000 recL ++ [contL]) =
      { state1000 with line_count := 1001 } := by
  have h0 := processLines_1000recL
  rw [processLines] at h0
  rw [processLines, List.foldl_append, h0, List.foldl_cons, List.foldl_nil]
  rw [processLine_contL_flushed fileC state1000 rfl rfl (by decide) (by decide)]
  simp [state1000]

theorem pipeline_contL :
    process_log_files fileC (List.replicate 1000 recL ++ [contL]) =
      { state1000 with line_count := 1001 } := by
  rw [process_log_files, processArchive, processLines_1000recL_contL]
  exact finishFile_trivial _ rfl rfl rfl rfl

theorem processLines_1000recL_stL :
    processLines fileC initDB (List.replicate 1000 recL ++ [stL]) =
      { state1000 with line_count := 1001, current_stack_trace := [stL] } := by
  have h0 := processLines_1000recL
  rw [processLines] at h0
  rw [processLines, List.foldl_append, h0, List.foldl_cons, List.foldl_nil]
  rw [processLine_stL_flushed fileC state1000 rfl (by decide) (by decide)]
  simp [state1000]

theorem pipeline_stL :
    process_log_files fileC (List.replicate 1000 recL ++ [stL]) =
      { state1000 with line_count := 1001, current_stack_trace := [stL] } := by
  rw [process_log_files, processArchive, processLines_1000recL_stL]
  exact finishFile_trivial _ rfl rfl rfl rfl

/-! ### The owning-identifier invariant for stack-trace rows (claim C9) -/

theorem flushLogs_traces_eq (d : DB) (b : List LogEntry) :
    (flushLogs d b).stack_traces = d.stack_traces := rfl

theorem flushErrors_traces_eq (d : DB) (e : List (List Char × List Char × List Char)) :
    (flushErrors d e).stack_traces = d.stack_traces := rfl

theorem flushTraces_traces_eq (d : DB) (t : List (Option Nat × List Char)) :
    (flushTraces d t).stack_traces = d.stack_traces ++ t := rfl

theorem dbchain_traces (db : DB) (batch2 : List LogEntry)
    (err2 : List (List Char × List Char × List Char))
    (stb1 : List (Option Nat × List Char))
    (hstb1 : ∀ r ∈ stb1, r.1.isSome = true)
    (hdb : ∀ r ∈ db.stack_traces, r.1.isSome = true) :
    (∀ r ∈ (if stb1.length ≥ batch_size then ([] : List (Option Nat × List Char)) else stb1),
      r.1.isSome = true) ∧
    (∀ r ∈ (if stb1.length ≥ batch_size then
          flushTraces
            (if err2.length ≥ batch_size then
              flushErrors (if batch2.length ≥ batch_size then flushLogs db batch2 else db) err2
            else (if batch2.length ≥ batch_size then flushLogs db batch2 else db)) stb1
        else
          (if err2.length ≥ batch_size then
            flushErrors (if batch2.length ≥ batch_size then flushLogs db batch2 else db) err2
          else (if batch2.length ≥ batch_size then flushLogs db batch2 else db))).stack_traces,
      r.1.isSome = true) := by
  have hdb1 : ∀ r ∈ (if batch2.length ≥ batch_size then flushLogs db batch2
      else db).stack_traces, r.1.isSome = true := by
    split
    · rw [flushLogs_traces_eq]; exact hdb
    · exact hdb
  have hdb2 : ∀ r ∈ (if err2.length ≥ batch_size then
      flushErrors (if batch2.length ≥ batch_size then flushLogs db batch2 else db) err2
      else (if batch2.length ≥ batch_size then flushLogs db batch2 else db)).stack_traces,
      r.1.isSome = true := by
    split
    · rw [flushErrors_traces_eq]; exact hdb1
    · exact hdb1
  constructor
  · split
    · intro r hr; simp at hr
    · exact hstb1
  · split
    · rw [flushTraces_traces_eq]
      intro r hr
      rcases List.mem_append.mp hr with hm | hm
      · exact hdb2 r hm
      · exact hstb1 r hm
    · exact hdb2

theorem processLine_traceIdsOk (f : List Char) (st : PState) (l : List Char)
    (h1 : ∀ r ∈ st.stack_trace_batch, r.1.isSome = true)
    (h2 : ∀ r ∈ st.db.stack_traces, r.1.isSome = true) :
    (∀ r ∈ (processLine f st l).stack_trace_batch, r.1.isSome = true) ∧
    (∀ r ∈ (processLine f st l).db.stack_traces, r.1.isSome = true) := by
  have hA : ∀ r ∈ (if (!st.current_stack_trace.isEmpty && is_new_log_line (pstrip l) &&
        st.last_log_id.isSome) = true
      then st.stack_trace_batch ++ [(st.last_log_id, joinLines st.current_stack_trace)]
      else st.stack_trace_batch), r.1.isSome = true := by
    split
    · rename_i hcond
      rw [Bool.and_eq_true] at hcond
      intro r hr
      rcases List.mem_append.mp hr with hr2 | hr2
      · exact h1 r hr2
      · have hreq : r = (st.last_log_id, joinLines st.current_stack_trace) := by
          simpa using hr2
        rw [hreq]
        exact hcond.2
    · exact h1
  rw [processLine]
  split
  · exact ⟨h1, h2⟩
  · exact dbchain_traces st.db _ _ _ hA h2

theorem finish_traces_chain (db1 : DB) (eb : List (List Char × List Char × List Char))
    (stb : List (Option Nat × List Char)) (cst : List (List Char)) (llid1 : Option Nat)
    (hstb : ∀ r ∈ stb, r.1.isSome = true)
    (hdb : ∀ r ∈ db1.stack_traces, r.1.isSome = true) :
    ∀ r ∈ (if !(if (!cst.isEmpty && llid1.isSome) = true
          then stb ++ [(llid1, joinLines cst)] else stb).isEmpty then
        flushTraces (if !eb.isEmpty then flushErrors db1 eb else db1)
          (if (!cst.isEmpty && llid1.isSome) = true
            then stb ++ [(llid1, joinLines cst)] else stb)
      else (if !eb.isEmpty then flushErrors db1 eb else db1)).stack_traces,
      r.1.isSome = true := by
  have hdb2 : ∀ r ∈ (if !eb.isEmpty then flushErrors db1 eb else db1).stack_traces,
      r.1.isSome = true := by
    split
    · rw [flushErrors_traces_eq]; exact hdb
    · exact hdb
  split
  · rename_i hcond
    rw [Bool.and_eq_true] at hcond
    have hstb1 : ∀ r ∈ stb ++ [(llid1, joinLines cst)], r.1.isSome = true := by
      intro r hr
      rcases List.mem_append.mp hr with hm | hm
      · exact hstb r hm
      · have hreq : r = (llid1, joinLines cst) := by simpa using hm
        rw [hreq]
        exact hcond.2
    split
    · rw [flushTraces_traces_eq]
      intro r hr
      rcases List.mem_append.mp hr with hm | hm
      · exact hdb2 r hm
      · exact hstb1 r hm
    · exact hdb2
  · split
    · rw [flushTraces_traces_eq]
      intro r hr
      rcases List.mem_append.mp hr with hm | hm
      · exact hdb2 r hm
      · exact hstb r hm
    · exact hdb2

theorem finishFile_traceIdsOk (st : PState)
    (h1 : ∀ r ∈ st.stack_trace_batch, r.1.isSome = true)
    (h2 : ∀ r ∈ st.db.stack_traces, r.1.isSome = true) :
    ∀ r ∈ (finishFile st).db.stack_traces, r.1.isSome = true := by
  have hdb1 : ∀ r ∈ (if !st.batch.isEmpty then flushLogs st.db st.batch
      else st.db).stack_traces, r.1.isSome = true := by
    split
    · rw [flushLogs_traces_eq]; exact h2
    · exact h2
  rw [finishFile]
  exact finish_traces_chain _ _ _ _ _ h1 hdb1

theorem foldl_traceIdsOk (f : List Char) (lines : List (List Char)) :
    ∀ (st : PState),
      (∀ r ∈ st.stack_trace_batch, r.1.isSome = true) →
      (∀ r ∈ st.db.stack_traces, r.1.isSome = true) →
      (∀ r ∈ (List.foldl (processLine f) st lines).stack_trace_batch, r.1.isSome = true) ∧
      (∀ r ∈ (List.foldl (processLine f) st lines).db.stack_traces, r.1.isSome = true) := by
  induction lines with
  | nil => intro st ha hb; exact ⟨ha, hb⟩
  | cons x xs ih =>
    intro st ha hb
    rw [List.foldl_cons]
    obtain ⟨ha2, hb2⟩ := processLine_traceIdsOk f st x ha hb
    exact ih _ ha2 hb2

/-! ### Small lemmas about the batch-mutation helpers -/

theorem appendLast_append (line : List Char) :
    ∀ (bs0 : List LogEntry) (e : LogEntry),
      appendLast line (bs0 ++ [e]) =
        bs0 ++ [{ e with
                  message := e.message ++ '\n' :: line,
                  raw_log := e.raw_log ++ '\n' :: line }] := by
  intro bs0
  induction bs0 with
  | nil => intro e; rfl
  | cons x xs ih =>
    intro e
    cases xs with
    | nil => rfl
    | cons y ys =>
      have hstep : appendLast line ((x :: y :: ys) ++ [e]) =
          x :: appendLast line ((y :: ys) ++ [e]) := rfl
      rw [hstep, ih e]
      rfl

theorem appendLast_length (line : List Char) :
    ∀ (b : List LogEntry), (appendLast line b).length = b.length := by
  intro b
  induction b with
  | nil => rfl
  | cons x xs ih =>
    cases xs with
    | nil => rfl
    | cons y ys => simp_all [appendLast]

theorem setLastFlag_append :
    ∀ (bs0 : List LogEntry) (e : LogEntry),
      setLastFlag (bs0 ++ [e]) = bs0 ++ [{ e with has_stack_trace := 1 }] := by
  intro bs0
  induction bs0 with
  | nil => intro e; rfl
  | cons x xs ih =>
    intro e
    cases xs with
    | nil => rfl
    | cons y ys =>
      have hstep : setLastFlag ((x :: y :: ys) ++ [e]) =
          x :: setLastFlag ((y :: ys) ++ [e]) := rfl
      rw [hstep, ih e]
      rfl

theorem setLastFlag_length :
    ∀ (b : List LogEntry), (setLastFlag b).length = b.length := by
  intro b
  induction b with
  | nil => rfl
  | cons x xs ih =>
    cases xs with
    | nil => rfl
    | cons y ys => simp_all [setLastFlag]

theorem withIds_map_message : ∀ (s : Nat) (l : List LogEntry),
    (withIds s l).map (fun r => r.2.message) = l.map (fun e => e.message) := by
  intro s l
  induction l generalizing s with
  | nil => rfl
  | cons e es ih => simp [withIds, ih]

theorem withIds_map_flag : ∀ (s : Nat) (l : List LogEntry),
    (withIds s l).map (fun r => r.2.has_stack_trace) =
      l.map (fun e => e.has_stack_trace) := by
  intro s l
  induction l generalizing s with
  | nil => rfl
  | cons e es ih => simp [withIds, ih]

theorem is_new_log_line_nil : is_new_log_line [] = false := by decide

theorem is_stack_trace_line_nil : is_stack_trace_line [] = false := by decide

/-- On a line matching neither structural pattern, `parse_log_line` is decided
by the stack-trace heuristic. -/
theorem parse_of_unmatched (line f : List Char)
    (hnew : is_new_log_line line = false) :
    parse_log_line line f =
      (if is_stack_trace_line line then ParseResult.stackTraceLine line
       else ParseResult.unparsed ⟨[], [], [], [], line, f, line, 0⟩ cantParseMsg) := by
  rw [is_new_log_line] at hnew
  cases hm1 : matchPrimary line with
  | some m => rw [hm1] at hnew; simp at hnew
  | none =>
    cases hm2 : matchAlt line with
    | some m => rw [hm1, hm2] at hnew; simp at hnew
    | none => rw [parse_log_line, hm1, hm2]

/-- **C3 (amended).**  When a primary/fallback ("new record") line arrives
while the pending stack-trace buffer is non-empty, the machine closes the
pending trace and clears the buffer only when `last_log_id` is set, attaching
the trace to that identifier; when `last_log_id` is still `none` the buffer
is retained unchanged, so its lines can later merge with trace lines of a
subsequent record. -/
theorem C3_close_on_new_record (f : List Char) (st : PState) (line : List Char) (i : Nat)
    (hstrip : pstrip line = line)
    (hnew : is_new_log_line line = true)
    (hcst : st.current_stack_trace ≠ [])
    (hstb : st.stack_trace_batch.length + 1 < batch_size) :
    (st.last_log_id = some i →
      (processLine f st line).current_stack_trace = [] ∧
      (processLine f st line).stack_trace_batch =
        st.stack_trace_batch ++ [(some i, joinLines st.current_stack_trace)]) ∧
    (st.last_log_id = none →
      (processLine f st line).current_stack_trace = st.current_stack_trace ∧
      (processLine f st line).stack_trace_batch = st.stack_trace_batch) := by
  have hne : line ≠ [] := by
    intro h
    rw [h, is_new_log_line_nil] at hnew
    exact absurd hnew (by simp)
  have hblank : line.isEmpty = false := by
    cases line with
    | nil => exact absurd rfl hne
    | cons c cs => rfl
  have hcstb : st.current_stack_trace.isEmpty = false := by
    cases hc : st.current_stack_trace with
    | nil => exact absurd hc hcst
    | cons c cs => rfl
  have homega : ¬ (batch_size ≤ st.stack_trace_batch.length + 1) := by omega
  have homega2 : ¬ (batch_size ≤ st.stack_trace_batch.length) := by omega
  constructor
  · intro hlid
    cases hp : parse_log_line line f with
    | record e =>
      simp [processLine, hstrip, hblank, hnew, hcstb, hlid, hp, homega]
    | stackTraceLine sl =>
      simp [processLine, hstrip, hblank, hnew, hcstb, hlid, hp, homega]
    | unparsed e err =>
      simp [processLine, hstrip, hblank, hnew, hcstb, hlid, hp, homega]
  · intro hlid
    cases hp : parse_log_line line f with
    | record e =>
      simp [processLine, hstrip, hblank, hnew, hcstb, hlid, hp, homega2]
    | stackTraceLine sl =>
      simp [processLine, hstrip, hblank, hnew, hcstb, hlid, hp, homega2]
    | unparsed e err =>
      simp [processLine, hstrip, hblank, hnew, hcstb, hlid, hp, homega2]

/-- **C4 (amended).**  An unclassified non-blank line arriving while a record
is open is appended — joined with a single newline — to both the message and
raw-text fields of the batch's last entry, provided the in-memory record
batch is non-empty; when the batch was just flushed (empty) the line is
silently dropped: nothing is appended anywhere, no error is recorded, and
the store is unchanged. -/
theorem C4_continuation_append (f : List Char) (st : PState) (line : List Char)
    (hstrip : pstrip line = line) (hne : line ≠ [])
    (hnew : is_new_log_line line = false)
    (hst : is_stack_trace_line line = false)
    (hcle : st.current_log_entry.isSome = true)
    (hb : st.batch.length < batch_size)
    (he : st.error_batch.length < batch_size)
    (hs : st.stack_trace_batch.length < batch_size) :
    (∀ bs0 e, st.batch = bs0 ++ [e] →
      (processLine f st line).batch =
        bs0 ++ [{ e with
                  message := e.message ++ '\n' :: line,
                  raw_log := e.raw_log ++ '\n' :: line }] ∧
      (processLine f st line).error_batch = st.error_batch ∧
      (processLine f st line).db.logs = st.db.logs) ∧
    (st.batch = [] →
      (processLine f st line).batch = [] ∧
      (processLine f st line).db = st.db ∧
      (processLine f st line).error_batch = st.error_batch) := by
  have hblank : line.isEmpty = false := by
    cases line with
    | nil => exact absurd rfl hne
    | cons c cs => rfl
  have hp : parse_log_line line f =
      ParseResult.unparsed ⟨[], [], [], [], line, f, line, 0⟩ cantParseMsg := by
    rw [parse_of_unmatched line f hnew, hst]
    simp
  have homega : ¬ (batch_size ≤ st.error_batch.length) := by omega
  have homega2 : ¬ (batch_size ≤ st.stack_trace_batch.length) := by omega
  constructor
  · intro bs0 e hbatch
    have hlenb : bs0.length + 1 < batch_size := by
      rw [hbatch] at hb
      simpa using hb
    have hifneg : ¬ (batch_size ≤ bs0.length + 1) := by omega
    have hnonempty : st.batch.isEmpty = false := by
      rw [hbatch]
      cases bs0 <;> rfl
    simp [processLine, hstrip, hblank, hnew, hp, hcle, hnonempty, hlenb, hifneg,
      homega, homega2, hbatch, appendLast_append]
  · intro hbatch
    have hbs0 : ¬ (batch_size = 0) := by decide
    simp [processLine, hstrip, hblank, hnew, hp, hcle, hbatch, homega, homega2, hbs0]

/-- **C7 (amended).**  A line matching the stack-trace heuristic (and neither
structural pattern) is appended to the pending stack-trace buffer; when a
record is open the has-stack-trace flag of the batch's **last buffered**
entry is set to 1 — but only while the record batch is non-empty.  When the
batch containing the current record has already been flushed, the flag
update is skipped and the store is unchanged. -/
theorem C7_stack_trace_line (f : List Char) (st : PState) (line : List Char)
    (hstrip : pstrip line = line)
    (hnew : is_new_log_line line = false)
    (hst : is_stack_trace_line line = true)
    (hb : st.batch.length < batch_size)
    (he : st.error_batch.length < batch_size)
    (hs : st.stack_trace_batch.length < batch_size) :
    (processLine f st line).current_stack_trace = st.current_stack_trace ++ [line] ∧
    (∀ bs0 e, st.current_log_entry.isSome = true → st.batch = bs0 ++ [e] →
      (processLine f st line).batch = bs0 ++ [{ e with has_stack_trace := 1 }]) ∧
    (st.batch = [] →
      (processLine f st line).batch = [] ∧
      (processLine f st line).db = st.db) := by
  have hne : line ≠ [] := by
    intro h
    rw [h, is_stack_trace_line_nil] at hst
    exact absurd hst (by simp)
  have hblank : line.isEmpty = false := by
    cases line with
    | nil => exact absurd rfl hne
    | cons c cs => rfl
  have hp : parse_log_line line f = ParseResult.stackTraceLine line := by
    rw [parse_of_unmatched line f hnew, hst]
    simp
  have homega : ¬ (batch_size ≤ st.error_batch.length) := by omega
  have homega2 : ¬ (batch_size ≤ st.stack_trace_batch.length) := by omega
  have hlenflag : ¬ (batch_size ≤ (setLastFlag st.batch).length) := by
    rw [setLastFlag_length]
    omega
  have hlen : ¬ (batch_size ≤ st.batch.length) := by omega
  refine ⟨?_, ?_, ?_⟩
  · by_cases hflag : st.current_log_entry.isSome = true ∧ st.batch.isEmpty = false
    · simp [processLine, hstrip, hblank, hnew, hp, hflag.1, hflag.2, homega, homega2,
        hlenflag]
    · rw [Classical.not_and_iff_or_not_not] at hflag
      rcases hflag with hflag | hflag
      · have hflag2 : st.current_log_entry.isSome = false := by
          simpa using hflag
        simp [processLine, hstrip, hblank, hnew, hp, hflag2, homega, homega2, hlen]
      · have hflag2 : st.batch.isEmpty = true := by
          simpa using hflag
        simp [processLine, hstrip, hblank, hnew, hp, hflag2, homega, homega2, hlen]
  · intro bs0 e hcle hbatch
    have hlenb : bs0.length + 1 < batch_size := by
      rw [hbatch] at hb
      simpa using hb
    have hnonempty : st.batch.isEmpty = false := by
      rw [hbatch]
      cases bs0 <;> rfl
    simp [processLine, hstrip, hblank, hnew, hp, hcle, hnonempty, hlenflag, hlenb,
      homega, homega2, hbatch, setLastFlag_append]
  · intro hbatch
    have hbs0 : ¬ (batch_size = 0) := by decide
    simp [processLine, hstrip, hblank, hnew, hp, hbatch, homega, homega2, hbs0]

/-! ### End-of-archive flush behaviour (claim C8) -/

theorem flushLogs_logs_eq (d : DB) (b : List LogEntry) :
    (flushLogs d b).logs = d.logs ++ withIds d.nextLogId b := rfl

theorem flushErrors_logs_eq (d : DB) (e : List (List Char × List Char × List Char)) :
    (flushErrors d e).logs = d.logs := rfl

theorem flushTraces_logs_eq (d : DB) (t : List (Option Nat × List Char)) :
    (flushTraces d t).logs = d.logs := rfl

theorem flushLogs_errors_eq (d : DB) (b : List LogEntry) :
    (flushLogs d b).parsing_errors = d.parsing_errors := rfl

theorem flushErrors_errors_eq (d : DB) (e : List (List Char × List Char × List Char)) :
    (flushErrors d e).parsing_errors = d.parsing_errors ++ e := rfl

theorem flushTraces_errors_eq (d : DB) (t : List (Option Nat × List Char)) :
    (flushTraces d t).parsing_errors = d.parsing_errors := rfl

theorem chainA (db1 : DB) (eb : List (List Char × List Char × List Char))
    (stb1 : List (Option Nat × List Char)) :
    (if !stb1.isEmpty then
       flushTraces (if !eb.isEmpty then flushErrors db1 eb else db1) stb1
     else (if !eb.isEmpty then flushErrors db1 eb else db1)).logs = db1.logs := by
  split
  · rw [flushTraces_logs_eq]
    split
    · rw [flushErrors_logs_eq]
    · rfl
  · split
    · rw [flushErrors_logs_eq]
    · rfl

theorem chainB (db1 : DB) (eb : List (List Char × List Char × List Char))
    (stb1 : List (Option Nat × List Char)) :
    (if !stb1.isEmpty then
       flushTraces (if !eb.isEmpty then flushErrors db1 eb else db1) stb1
     else (if !eb.isEmpty then flushErrors db1 eb else db1)).parsing_errors =
      db1.parsing_errors ++ eb := by
  have hcase : (if !eb.isEmpty then flushErrors db1 eb else db1).parsing_errors =
      db1.parsing_errors ++ eb := by
    split
    · rw [flushErrors_errors_eq]
    · rename_i h
      have heb : eb = [] := by simpa using h
      simp [heb]
  split
  · rw [flushTraces_errors_eq, hcase]
  · exact hcase

theorem chainC (db1 : DB) (eb : List (List Char × List Char × List Char))
    (stb1 : List (Option Nat × List Char)) (r : Option Nat × List Char) (hr : r ∈ stb1) :
    r ∈ (if !stb1.isEmpty then
       flushTraces (if !eb.isEmpty then flushErrors db1 eb else db1) stb1
     else (if !eb.isEmpty then flushErrors db1 eb else db1)).stack_traces := by
  have hne : stb1.isEmpty = false := by
    cases stb1 with
    | nil => simp at hr
    | cons x xs => rfl
  rw [if_pos (by simp [hne])]
  rw [flushTraces_traces_eq]
  exact List.mem_append.mpr (Or.inr hr)

theorem finishFile_logs (st : PState) :
    (finishFile st).db.logs = st.db.logs ++ withIds st.db.nextLogId st.batch := by
  rw [finishFile]
  refine Eq.trans (chainA _ _ _) ?_
  split
  · rw [flushLogs_logs_eq]
  · rename_i h
    have hb : st.batch = [] := by simpa using h
    rw [hb]
    simp [withIds]

theorem finishFile_errors (st : PState) :
    (finishFile st).db.parsing_errors = st.db.parsing_errors ++ st.error_batch := by
  rw [finishFile]
  refine Eq.trans (chainB _ _ _) ?_
  split
  · rw [flushLogs_errors_eq]
  · rfl

theorem finishFile_mem_traces (st : PState) (r : Option Nat × List Char)
    (hr : r ∈ st.stack_trace_batch) : r ∈ (finishFile st).db.stack_traces := by
  rw [finishFile]
  refine chainC _ _ _ r ?_
  repeat' split
  all_goals first
    | exact List.mem_append.mpr (Or.inl hr)
    | exact hr

/-! ### The claims -/

/-- **C1.**  Evaluation of the spec's four-line example archive.  The code
produces the two records with the claimed messages and has-stack-trace
flags, no parsing errors, and exactly one two-line stack trace — but the
trace row carries the identifier 2 of the second ("ok") record, not the
identifier 1 of the "boom" record claimed by the spec: no flush happened
before the fourth line, so the trace is only closed at end-of-archive,
after the whole batch was flushed, against the identifier of the *last*
inserted record. -/
theorem C1_example_archive_eval :
    (process_log_files fileC [l1C, l2C, l3C, l4C]).db.logs.map
        (fun r => (r.1, r.2.message, r.2.has_stack_trace)) =
      [(1, boomC, 1), (2, okC, 0)] ∧
    (process_log_files fileC [l1C, l2C, l3C, l4C]).db.stack_traces =
      [(some 2, traceTextC)] ∧
    (process_log_files fileC [l1C, l2C, l3C, l4C]).db.parsing_errors = [] := by
  decide

/-- **C2.**  On the four-line example archive the pending stack trace is
closed after its owning record (the "boom" record, current when the trace
lines arrived, with assigned identifier 1) has been flushed — yet the
persisted stack-trace row carries identifier 2, the identifier of the later
"ok" record: the deferred-linkage invariant claimed by the spec fails. -/
theorem C2_trace_attached_to_wrong_record :
    (process_log_files fileC [l1C, l2C, l3C, l4C]).db.stack_traces.map Prod.fst =
      [some 2] ∧
    ((process_log_files fileC [l1C, l2C, l3C, l4C]).db.logs.filter
        (fun r => r.2.message == boomC)).map Prod.fst = [1] ∧
    (processLines fileC initDB [l1C]).current_log_entry = some boomEntryC ∧
    (processLines fileC initDB [l1C, l2C]).current_stack_trace = [l2C] := by
  decide

/-- **C3 (counterexample).**  `l4C` is a primary-pattern ("new record") line
arriving while the pending buffer holds the trace line of the first record,
yet processing it leaves the buffer unchanged (no record batch has been
flushed, so `last_log_id` is `none`): the trace is neither emitted nor
cleared, and over the five-line archive the trace lines of the first and
second records are merged into a single stored trace attached to the third
record's identifier. -/
theorem C3_counterexample_buffer_retained :
    is_new_log_line l4C = true ∧
    (processLines fileC initDB [l1C, l2C]).current_stack_trace = [l2C] ∧
    (processLines fileC initDB [l1C, l2C, l4C]).current_stack_trace = [l2C] ∧
    (process_log_files fileC [l1C, l2C, l4C, fooC, thirdC]).db.stack_traces =
      [(some 3, mergedC)] := by
  decide

/-- Witness for `C3_close_on_new_record`. -/
theorem C3_close_on_new_record_witness :
    (processLine fileC c3wSt recL).current_stack_trace = [] ∧
    (processLine fileC c3wSt recL).stack_trace_batch =
      c3wSt.stack_trace_batch ++ [(some 7, joinLines c3wSt.current_stack_trace)] :=
  (C3_close_on_new_record fileC c3wSt recL 7 (by decide) (by decide) (by decide)
    (by decide)).1 rfl

/-- **C4 (counterexample).**  After 1000 record lines the batch has just been
flushed; the next line is an unclassified non-blank continuation line
arriving while a record is open (last conjunct), yet the final store holds
1000 records whose messages are all exactly `"m"`, no parsing error, and
empty buffers: the continuation line was silently dropped instead of being
appended to the open record. -/
theorem C4_counterexample_flush_drop :
    (process_log_files fileC (List.replicate 1000 recL ++ [contL])).db.logs.map
        (fun r => r.2.message) = List.replicate 1000 ("m".toList) ∧
    (process_log_files fileC (List.replicate 1000 recL ++ [contL])).db.parsing_errors =
      [] ∧
    (process_log_files fileC (List.replicate 1000 recL ++ [contL])).batch = [] ∧
    (process_log_files fileC (List.replicate 1000 recL ++ [contL])).error_batch = [] ∧
    (processLines fileC initDB (List.replicate 1000 recL)).current_log_entry =
      some (recRow fileC) := by
  refine ⟨?_, ?_, ?_, ?_, ?_⟩
  · rw [pipeline_contL]
    show (withIds 1 (List.replicate 1000 (recRow fileC))).map (fun r => r.2.message) = _
    rw [withIds_map_message, List.map_replicate]
    rfl
  · rw [pipeline_contL]
    rfl
  · rw [pipeline_contL]
    rfl
  · rw [pipeline_contL]
    rfl
  · rw [processLines_1000recL]
    rfl

/-- Witness for `C4_continuation_append`. -/
theorem C4_continuation_append_witness :
    (processLine fileC c4wSt contL).batch =
      [] ++ [{ recRow fileC with
               message := (recRow fileC).message ++ '\n' :: contL,
               raw_log := (recRow fileC).raw_log ++ '\n' :: contL }] ∧
    (processLine fileC c4wSt contL).error_batch = c4wSt.error_batch ∧
    (processLine fileC c4wSt contL).db.logs = c4wSt.db.logs :=
  (C4_continuation_append fileC c4wSt contL (by decide) (by decide) (by decide)
    (by decide) (by decide) (by decide) (by decide) (by decide)).1 [] (recRow fileC) rfl

/-- **C5 (counterexample).**  On a line whose module token (the
whitespace-delimited token between the severity token and the ` - `
separator) is `ab-cd` — whitespace-free and not a bare dash — the primary
pattern does **not** match: the `[^\s-]+` module class excludes every dash,
not just a bare dash. -/
theorem C5_counterexample_dashed_module :
    matchPrimary (mkPrimLine ("2025-03-06 00:00:00,024".toList) ("T-1".toList)
      ("INFO".toList) (' ' :: ("ab-cd".toList)) ("msg".toList)) = none ∧
    (∀ c ∈ ("ab-cd".toList), isSpaceChar c = false) ∧
    ("ab-cd".toList) ≠ ['-'] := by
  decide

/-- Witness for `C5_primary_module_characterization`. -/
theorem C5_primary_module_characterization_witness :
    (matchPrimary (mkPrimLine tsWC thWC lvlWC tcWC msgWC)).isSome = true :=
  (C5_primary_module_characterization tsWC thWC lvlWC tcWC msgWC (by decide) (by decide)
    (by decide) (by decide) (by decide)
    (by intro c cs h; injection h with h1 _; rw [← h1]; decide)
    (by decide) (by decide) (by decide)).1.mpr
    ⟨[' '], modWC, by decide, by decide, by decide, by decide, by decide⟩

/-- **C6 (counterexample).**  The single parsing error produced for the bare
line `"not a log line"` does not carry the reason string claimed by the
spec. -/
theorem C6_counterexample_reason_string :
    (process_log_files fileC [nlpC]).db.parsing_errors.map (fun r => r.2.2) ≠
      [claimReasonC] := by
  decide

/-- **C6 (amended).**  A bare unclassifiable line with no preceding record
yields exactly one Parsing Error whose reason is the string
`"Continuation line without a parent log entry"` (the code's actual
message), and zero records. -/
theorem C6_orphan_continuation :
    (process_log_files fileC [nlpC]).db.parsing_errors = [(nlpC, fileC, contErrMsg)] ∧
    (process_log_files fileC [nlpC]).db.logs = [] ∧
    (process_log_files fileC [nlpC]).batch = [] := by
  decide

/-- **C7 (counterexample).**  After 1000 record lines the batch has just been
flushed; a stack-trace line then arrives while the 1000th record is still
the open record (third conjunct), and is buffered (fourth conjunct) — yet
every stored row keeps has-stack-trace = 0: the flag update is skipped
because the in-memory batch is empty, contradicting the claim that the flag
is set even when the record's batch has already been flushed. -/
theorem C7_counterexample_flag_after_flush :
    (process_log_files fileC (List.replicate 1000 recL ++ [stL])).db.logs.map
        (fun r => r.2.has_stack_trace) = List.replicate 1000 0 ∧
    (process_log_files fileC (List.replicate 1000 recL ++ [stL])).db.stack_traces = [] ∧
    (processLines fileC initDB (List.replicate 1000 recL)).current_log_entry =
      some (recRow fileC) ∧
    (processLines fileC initDB (List.replicate 1000 recL ++ [stL])).current_stack_trace =
      [stL] := by
  refine ⟨?_, ?_, ?_, ?_⟩
  · rw [pipeline_stL]
    show (withIds 1 (List.replicate 1000 (recRow fileC))).map
      (fun r => r.2.has_stack_trace) = _
    rw [withIds_map_flag, List.map_replicate]
    rfl
  · rw [pipeline_stL]
    rfl
  · rw [processLines_1000recL]
    rfl
  · rw [processLines_1000recL_stL]

/-- Witness for `C7_stack_trace_line`. -/
theorem C7_stack_trace_line_witness :
    (processLine fileC c4wSt stL).batch =
      [] ++ [{ recRow fileC with has_stack_trace := 1 }] :=
  (C7_stack_trace_line fileC c4wSt stL (by decide) (by decide) (by decide)
    (by decide) (by decide) (by decide)).2.1 [] (recRow fileC) (by decide) rfl

theorem finishFile_pending_trace (st : PState) (hcst : st.current_stack_trace ≠ [])
    (hor : st.batch ≠ [] ∨ st.last_log_id ≠ none) :
    ∃ i, (some i, joinLines st.current_stack_trace) ∈ (finishFile st).db.stack_traces := by
  have hce : st.current_stack_trace.isEmpty = false := by
    cases hc : st.current_stack_trace with
    | nil => exact absurd hc hcst
    | cons x xs => rfl
  by_cases hbb : st.batch = []
  · rcases hor with h | h
    · exact absurd hbb h
    · obtain ⟨j, hj⟩ := Option.ne_none_iff_exists'.mp h
      refine ⟨j, ?_⟩
      have hbe : st.batch.isEmpty = true := by simp [hbb]
      rw [finishFile]
      refine chainC _ _ _ _ ?_
      simp [hbe, hce, hj]
  · have hbe : st.batch.isEmpty = false := by
      cases hB : st.batch with
      | nil => exact absurd hB hbb
      | cons x xs => rfl
    refine ⟨st.db.nextLogId + st.batch.length - 1, ?_⟩
    rw [finishFile]
    refine chainC _ _ _ _ ?_
    simp [hbe, hce]

/-- **C8 (amended).**  At end-of-archive every still-open record (the whole
remaining record batch) is written to the store with consecutively assigned
identifiers, every buffered parsing error is written, every buffered
stack-trace row is written, and a still-pending non-empty stack-trace buffer
is written exactly when an owning identifier is available — the record batch
is non-empty (so the final flush produces one) or `last_log_id` is already
set.  (When neither holds the pending trace is dropped; see the
counterexample.) -/
theorem C8_end_of_archive_flush (f : List Char) (db : DB) (lines : List (List Char)) :
    (processArchive f db lines).db.logs =
      (processLines f db lines).db.logs ++
        withIds (processLines f db lines).db.nextLogId (processLines f db lines).batch ∧
    (processArchive f db lines).db.parsing_errors =
      (processLines f db lines).db.parsing_errors ++
        (processLines f db lines).error_batch ∧
    (∀ r ∈ (processLines f db lines).stack_trace_batch,
      r ∈ (processArchive f db lines).db.stack_traces) ∧
    ((processLines f db lines).current_stack_trace ≠ [] →
      ((processLines f db lines).batch ≠ [] ∨
        (processLines f db lines).last_log_id ≠ none) →
      ∃ i, (some i, joinLines (processLines f db lines).current_stack_trace) ∈
        (processArchive f db lines).db.stack_traces) :=
  ⟨finishFile_logs _, finishFile_errors _,
   fun r hr => finishFile_mem_traces _ r hr,
   fun h1 h2 => finishFile_pending_trace _ h1 h2⟩

/-- Witness for `C8_end_of_archive_flush`. -/
theorem C8_end_of_archive_flush_witness :
    ∃ i, ((some i : Option Nat),
        joinLines (processLines fileC initDB [l1C, l2C]).current_stack_trace) ∈
      (processArchive fileC initDB [l1C, l2C]).db.stack_traces :=
  (C8_end_of_archive_flush fileC initDB [l1C, l2C]).2.2.2 (by decide) (by decide)

/-- **C8 (counterexample).**  An archive consisting of a single stack-trace
line ends with a non-empty pending stack-trace buffer, yet nothing is
written to the store: with no record ever flushed there is no owning
identifier, and the pending trace is silently dropped at end-of-archive. -/
theorem C8_counterexample_pending_trace_dropped :
    (processLines fileC initDB [l2C]).current_stack_trace = [l2C] ∧
    (process_log_files fileC [l2C]).db.stack_traces = [] ∧
    (process_log_files fileC [l2C]).db.logs = [] ∧
    (process_log_files fileC [l2C]).db.parsing_errors = [] := by
  decide

/-- **C9.**  Every stack-trace row ever handed to the store carries a
non-null owning-record identifier: starting from any database whose
stack-trace rows all carry one, after processing a whole archive every
stored stack-trace row still carries one — a pending trace reaching its
close point with `last_log_id = none` is withheld rather than inserted with
a null identifier. -/
theorem C9_trace_rows_have_owner (f : List Char) (db : DB) (lines : List (List Char))
    (hdb : ∀ r ∈ db.stack_traces, r.1.isSome = true) :
    ∀ r ∈ (processArchive f db lines).db.stack_traces, r.1.isSome = true := by
  obtain ⟨ha, hb⟩ := foldl_traceIdsOk f lines (initPState db)
    (by intro r hr; simp [initPState] at hr) hdb
  rw [processArchive, processLines]
  exact finishFile_traceIdsOk _ ha hb

/-- Witness for `C9_trace_rows_have_owner`. -/
theorem C9_trace_rows_have_owner_witness :
    ((some 2 : Option Nat), traceTextC).1.isSome = true :=
  C9_trace_rows_have_owner fileC initDB [l1C, l2C, l3C, l4C]
    (by intro r hr; simp [initDB] at hr)
    ((some 2 : Option Nat), traceTextC) (by decide)

/-- **C10.**  In the export utility, a run with `--type stack_traces` alone
never exports any stack traces: the error-logs DataFrame is only populated
for the types `logs` and `all`, and the stack-trace query is guarded by that
DataFrame being non-empty, so for every database state and limit both the
error-logs and stack-traces DataFrames stay empty. -/
theorem C10_stack_traces_alone_exports_nothing (db : EDB) (limit : Option Nat) :
    (exportMain db ExportType.stack_traces limit).stack_traces_df = [] ∧
    (exportMain db ExportType.stack_traces limit).error_logs_df = [] := by
  simp [exportMain]
